import Mathlib

/-!
# Artify — Event Unification Pipeline: a shallow embedding

This file embeds the core of the Artify event pipeline
(`src/backend/core/{categorizer,normalization,deduplicate,models}.py`) as
executable Lean definitions and proves/refutes the frozen claims about it.

Modelling conventions:
* Python strings are `String`; all character-level work is done on `List Char`
  with structural recursion so every definition evaluates by `decide`/`rfl`.
* Python `str.lower()` is modelled as ASCII lower-casing (`Char.toLower`);
  the accented characters appearing in this code base's tables are already
  lower case, so the two agree on all inputs used here.
* Python floats carrying prices are modelled as `ℚ` (every price literal the
  parser can produce has at most two decimals, and float rounding is monotone,
  so order- and zero-comparisons agree with the Python floats).
* `datetime.now()` is modelled by threading an explicit clock value.
-/

namespace Artify

/-! ## Character/string utilities shared by the embedded modules -/

/-- Whitespace as recognised by Python's `str.split`/`str.strip` (the
whitespace that occurs in this pipeline's data). -/
def isWs (c : Char) : Bool := c == ' ' || c == '\t' || c == '\n' || c == '\r'

/-- ASCII lower-casing, modelling Python `str.lower` on the data used here. -/
def lowerStr (s : String) : String := ⟨s.data.map Char.toLower⟩

/-- Python `str.strip()` on a character list. -/
def stripChars (l : List Char) : List Char :=
  ((l.dropWhile isWs).reverse.dropWhile isWs).reverse

/-- Python `str.strip()`. -/
def stripStr (s : String) : String := ⟨stripChars s.data⟩

/-- Helper for `splitWs`: accumulates the current word (reversed). -/
def splitWsAux : List Char → List Char → List (List Char)
  | [], acc => if acc.isEmpty then [] else [acc.reverse]
  | c :: rest, acc =>
    if isWs c then
      if acc.isEmpty then splitWsAux rest [] else acc.reverse :: splitWsAux rest []
    else splitWsAux rest (c :: acc)

/-- Python `str.split()` (split on whitespace runs, no empty items). -/
def splitWs (s : String) : List String := (splitWsAux s.data []).map (⟨·⟩)

/-- Join a list of words with single spaces, Python `' '.join(...)`. -/
def joinSpace : List String → String
  | [] => ""
  | [w] => w
  | w :: rest => w ++ " " ++ joinSpace rest

/-- Does `needle` occur as a prefix of the list? -/
def isPrefixChars : List Char → List Char → Bool
  | [], _ => true
  | _ :: _, [] => false
  | a :: as, b :: bs => a == b && isPrefixChars as bs

/-- Substring containment over character lists (Python `needle in hay`). -/
def containsChars (needle : List Char) : List Char → Bool
  | [] => isPrefixChars needle []
  | c :: rest => isPrefixChars needle (c :: rest) || containsChars needle rest

/-- Python `needle in hay` on strings. -/
def strContains (hay needle : String) : Bool := containsChars needle.data hay.data

/-- If `p` is a prefix of `l`, return the remainder of `l` after it. -/
def dropPrefixChars? : List Char → List Char → Option (List Char)
  | [], l => some l
  | _ :: _, [] => none
  | a :: as, b :: bs => if a == b then dropPrefixChars? as bs else none

theorem dropPrefixChars?_length :
    ∀ (p l rem : List Char), dropPrefixChars? p l = some rem → rem.length ≤ l.length := by
  intro p
  induction p with
  | nil => intro l rem h; simp [dropPrefixChars?] at h; simp [h]
  | cons a as ih =>
    intro l rem h
    cases l with
    | nil => simp [dropPrefixChars?] at h
    | cons b bs =>
      simp only [dropPrefixChars?] at h
      by_cases hab : (a == b) = true
      · simp [hab] at h
        exact Nat.le_succ_of_le (ih bs rem h)
      · simp [hab] at h

/-- Replace every (non-overlapping, left-to-right) occurrence of the pattern
`o :: os` by `new`, modelling Python `str.replace` for a non-empty pattern.
Each step consumes at least one character, so `fuel` instantiated with the
length of the list (see `strReplace`) never runs out; it only makes the
recursion structural, so that the kernel can evaluate the definition. -/
def replaceChars (o : Char) (os new : List Char) : Nat → List Char → List Char
  | _, [] => []
  | 0, l => l
  | fuel + 1, c :: rest =>
    if o == c then
      match dropPrefixChars? os rest with
      | some rem => new ++ replaceChars o os new fuel rem
      | none => c :: replaceChars o os new fuel rest
    else c :: replaceChars o os new fuel rest

/-- Python `s.replace(old, new)`; the source never calls it with an empty
pattern, and the model returns `s` unchanged in that unused case. -/
def strReplace (s old new : String) : String :=
  match old.data with
  | [] => s
  | o :: os => ⟨replaceChars o os new.data s.data.length s.data⟩

/-! ## Categorizer (`src/backend/core/categorizer.py`) -/

/-- `VALID_CATEGORIES` from categorizer.py. -/
def VALID_CATEGORIES : List String :=
  ["spectacles", "musique", "arts_visuels", "ateliers", "sport",
   "gastronomie", "culture", "nightlife", "rencontres"]

/-- `SUB_CATEGORIES` from categorizer.py (insertion order preserved). -/
def SUB_CATEGORIES : List (String × List String) :=
  [("spectacles", ["theatre", "opera", "ballet", "danse", "humour", "stand_up", "cirque", "magie", "cabaret"]),
   ("musique", ["classique", "jazz", "rock", "pop", "electro", "rap", "world", "chanson_francaise", "symphonique"]),
   ("arts_visuels", ["exposition", "musee", "galerie", "photographie", "street_art", "art_contemporain", "vernissage"]),
   ("ateliers", ["ceramique", "poterie", "peinture", "dessin", "sculpture", "couture", "bijoux", "ecriture"]),
   ("sport", ["yoga", "fitness", "running", "escalade", "danse", "arts_martiaux", "velo"]),
   ("gastronomie", ["degustation_vin", "cours_cuisine", "patisserie", "brunch", "food_market"]),
   ("culture", ["cinema", "conference", "visite_guidee", "lecture", "masterclass"]),
   ("nightlife", ["club", "bar", "rooftop", "speakeasy", "soiree"]),
   ("rencontres", ["meetup", "networking", "afterwork", "speed_dating"])]

/-- `CATEGORY_KEYWORDS` from categorizer.py (insertion order preserved). -/
def CATEGORY_KEYWORDS : List (String × List String) :=
  [("spectacles",
    ["théâtre", "theatre", "opéra", "opera", "ballet", "danse", "dance",
     "comédie", "comedie", "comedy", "humour", "stand-up", "standup", "one man show",
     "cirque", "circus", "magie", "magic", "cabaret", "spectacle", "pièce",
     "marionnettes", "improvisation", "impro"]),
   ("musique",
    ["concert", "musique", "music", "live", "jazz", "rock", "pop", "electro",
     "electronic", "classique", "classical", "symphonie", "symphony", "orchestre",
     "orchestra", "rap", "hip-hop", "hip hop", "chanson", "folk", "blues",
     "récital", "recital", "philharmonie", "chamber music", "quartet", "trio"]),
   ("arts_visuels",
    ["exposition", "exhibition", "expo", "musée", "museum", "galerie", "gallery",
     "art", "vernissage", "photographie", "photography", "photo", "peinture",
     "painting", "sculpture", "installation", "beaux-arts", "contemporain"]),
   ("ateliers",
    ["atelier", "workshop", "cours", "class", "stage", "céramique", "ceramics",
     "poterie", "pottery", "peinture", "painting", "dessin", "drawing",
     "sculpture", "couture", "sewing", "bijoux", "jewelry", "créatif", "creative",
     "diy", "fabrication", "initiation", "masterclass créative"]),
   ("sport",
    ["sport", "fitness", "yoga", "pilates", "running", "course", "vélo", "cycling",
     "escalade", "climbing", "natation", "swimming", "musculation", "gym",
     "boxe", "boxing", "arts martiaux", "martial arts", "match", "compétition"]),
   ("gastronomie",
    ["dégustation", "tasting", "vin", "wine", "cuisine", "cooking", "chef",
     "gastronomie", "gastronomy", "pâtisserie", "pastry", "chocolat", "chocolate",
     "fromage", "cheese", "brunch", "food", "restaurant", "repas", "dîner", "dinner"]),
   ("culture",
    ["cinéma", "cinema", "film", "movie", "conférence", "conference", "talk",
     "lecture", "visite", "visit", "guidée", "guided", "patrimoine", "heritage",
     "histoire", "history", "littérature", "literature", "livre", "book", "débat"]),
   ("nightlife",
    ["club", "soirée", "party", "nuit", "night", "dj", "danse", "dancing",
     "bar", "cocktail", "rooftop", "speakeasy", "lounge", "afterparty"]),
   ("rencontres",
    ["meetup", "networking", "afterwork", "rencontre", "meeting", "social",
     "speed dating", "apéro", "drinks", "échange", "exchange", "conversation",
     "communauté", "community"])]

/-- The `{'category', 'sub_category'}` dictionary returned by the categorizer. -/
structure CatResult where
  category : String
  sub_category : Option String
deriving DecidableEq, Repr

/-- `sum(1 for kw in keywords if kw.lower() in text)`. -/
def countKeywordHits (text : String) (kws : List String) : Nat :=
  (kws.filter (fun kw => strContains text (lowerStr kw))).length

/-- First key attaining the maximal value: Python `max(d, key=d.get)` over a
dictionary in insertion order (strictly greater values displace the current
best, so ties keep the earlier key). The `[]` case is unreachable at the call
site and returns a dummy. -/
def firstMaxKeyGo : String → Nat → List (String × Nat) → String
  | k, _, [] => k
  | k, v, (k', v') :: rest =>
    if v' > v then firstMaxKeyGo k' v' rest else firstMaxKeyGo k v rest

def firstMaxKey : List (String × Nat) → String
  | [] => ""
  | (k, v) :: rest => firstMaxKeyGo k v rest

/-- `EventCategorizer._find_sub_category`. -/
def find_sub_category (text category : String) : Option String :=
  let sub_cats := (SUB_CATEGORIES.lookup category).getD []
  sub_cats.find? (fun sub =>
    strContains text (strReplace sub "_" " ") || strContains text (strReplace sub "_" "-"))

/-- `EventCategorizer._categorize_with_rules`. -/
def categorize_with_rules (title description venue_name : String) : CatResult :=
  let text := lowerStr (title ++ " " ++ description ++ " " ++ venue_name)
  let scores := CATEGORY_KEYWORDS.filterMap (fun p =>
    let score := countKeywordHits text p.2
    if score > 0 then some (p.1, score) else none)
  if scores.isEmpty then ⟨"culture", none⟩
  else
    let best_category := firstMaxKey scores
    ⟨best_category, find_sub_category text best_category⟩

/-- What `categorize` can observe of the optional external classifier:
no configured client, a raised exception, or the dictionary produced by
`_categorize_with_ai` (which itself already maps a failed JSON parse to
`{'category': 'culture', 'sub_category': None}` — covered by `reply`,
which ranges over every possible dictionary, malformed categories included). -/
inductive ClassifierReply where
  | noClient : ClassifierReply
  | raised : ClassifierReply
  | reply : CatResult → ClassifierReply

/-- `EventCategorizer.categorize`: accept the classifier's answer only when
its category is in the closed set, otherwise fall back to the rules. -/
def categorize (ai : ClassifierReply) (title description source_name venue_name : String) :
    CatResult :=
  match ai with
  | .reply r =>
      if VALID_CATEGORIES.contains r.category then r
      else categorize_with_rules title description venue_name
  | _ => categorize_with_rules title description venue_name

theorem firstMaxKeyGo_mem (k : String) (v : Nat) :
    ∀ l : List (String × Nat), firstMaxKeyGo k v l ∈ k :: l.map Prod.fst := by
  intro l
  induction l generalizing k v with
  | nil => simp [firstMaxKeyGo]
  | cons p rest ih =>
    simp only [firstMaxKeyGo]
    by_cases h : p.2 > v
    · simp only [h, if_pos]
      have := ih p.1 p.2
      simp only [List.map_cons, List.mem_cons] at *
      tauto
    · simp only [h, if_neg, not_false_iff]
      have := ih k v
      simp only [List.map_cons, List.mem_cons] at *
      tauto

theorem categorize_with_rules_mem (title description venue_name : String) :
    (categorize_with_rules title description venue_name).category ∈ VALID_CATEGORIES := by
  unfold categorize_with_rules
  set text := lowerStr (title ++ " " ++ description ++ " " ++ venue_name) with htext
  set scores := CATEGORY_KEYWORDS.filterMap (fun p =>
    let score := countKeywordHits text p.2
    if score > 0 then some (p.1, score) else none) with hscores
  by_cases hempty : scores.isEmpty
  · simp only [hempty, if_pos]
    decide
  · simp only [hempty, if_neg, not_false_iff, Bool.false_eq_true]
    -- the selected key is one of the score-table keys, which all come from
    -- CATEGORY_KEYWORDS, whose keys are exactly VALID_CATEGORIES
    have hmem : firstMaxKey scores ∈ "" :: scores.map Prod.fst := by
      cases h : scores with
      | nil => simp [h, firstMaxKey]
      | cons p rest =>
        have := firstMaxKeyGo_mem p.1 p.2 rest
        simp only [firstMaxKey, h, List.map_cons, List.mem_cons] at *
        tauto
    have hkeys : ∀ k ∈ scores.map Prod.fst, k ∈ VALID_CATEGORIES := by
      intro k hk
      rw [hscores] at hk
      simp only [List.mem_map] at hk
      obtain ⟨q, hq, hqk⟩ := hk
      rw [List.mem_filterMap] at hq
      obtain ⟨p, hp, hpq⟩ := hq
      have hfst : q.1 = p.1 := by
        by_cases hs : countKeywordHits text p.2 > 0
        · simp [hs] at hpq; rw [← hpq]
        · simp [hs] at hpq
      have : p.1 ∈ CATEGORY_KEYWORDS.map Prod.fst := List.mem_map_of_mem Prod.fst hp
      have hvalid : ∀ c ∈ CATEGORY_KEYWORDS.map Prod.fst, c ∈ VALID_CATEGORIES := by decide
      rw [← hqk, hfst]
      exact hvalid p.1 this
    rcases List.mem_cons.mp hmem with h0 | hmem'
    · -- scores nonempty, so firstMaxKey never returns the dummy ""
      exfalso
      cases h : scores with
      | nil => rw [h] at hempty; simp [List.isEmpty] at hempty
      | cons p rest =>
        have := firstMaxKeyGo_mem p.1 p.2 rest
        rw [h] at h0
        simp only [firstMaxKey] at h0
        have hin : firstMaxKey scores ∈ VALID_CATEGORIES := by
          rw [h]
          simp only [firstMaxKey]
          have hk := hkeys
          rw [h] at hk
          rcases List.mem_cons.mp this with h1 | h2
          · exact hk _ (by simp [h1])
          · exact hk _ (by simp; right; simpa using h2)
        rw [h] at hin
        simp only [firstMaxKey] at hin
        rw [h0] at hin
        revert hin; decide
    · exact hkeys _ hmem'

/-! ## Field normalizer (`src/backend/core/normalization.py`) -/

def digitVal (c : Char) : Nat := c.toNat - '0'.toNat

def digitsToNat (l : List Char) : Nat := l.foldl (fun n c => 10 * n + digitVal c) 0

/-- Maximal run of leading digits, with the remainder (`\d+`). -/
def takeDigits : List Char → List Char × List Char
  | [] => ([], [])
  | c :: rest =>
    if c.isDigit then
      let p := takeDigits rest
      (c :: p.1, p.2)
    else ([], c :: rest)

theorem takeDigits_rest_length : ∀ l : List Char, (takeDigits l).2.length ≤ l.length := by
  intro l
  induction l with
  | nil => simp [takeDigits]
  | cons c rest ih =>
    simp only [takeDigits]
    by_cases h : c.isDigit
    · simp only [h, if_pos]
      exact Nat.le_succ_of_le ih
    · simp [h]

/-- The `\s*(?:€|eur|euros?)?` suffix of the price regex.  The alternative
`euros?` can never fire (its prefix `eur` is tried first by the alternation),
and no suffix character is a digit, so this only advances the scan. -/
def skipCurrency (l : List Char) : List Char :=
  let l1 := l.dropWhile isWs
  match dropPrefixChars? ['€'] l1 with
  | some r => r
  | none =>
    match dropPrefixChars? ['e', 'u', 'r'] l1 with
    | some r => r
    | none => l1

theorem skipCurrency_length : ∀ l : List Char, (skipCurrency l).length ≤ l.length := by
  intro l
  have hdw : (l.dropWhile isWs).length ≤ l.length :=
    List.Sublist.length_le (List.dropWhile_sublist _)
  simp only [skipCurrency]
  cases h1 : dropPrefixChars? ['€'] (l.dropWhile isWs) with
  | some r => exact le_trans (dropPrefixChars?_length _ _ _ h1) hdw
  | none =>
    cases h2 : dropPrefixChars? ['e', 'u', 'r'] (l.dropWhile isWs) with
    | some r => exact le_trans (dropPrefixChars?_length _ _ _ h2) hdw
    | none => exact hdw

/-- Scanning loop of
`re.findall(r'(\d+(?:[.,]\d{2})?)\s*(?:€|eur|euros?)?', text)`, left to right
and non-overlapping, producing exact rationals (`12,50` ↦ `12.5`).  Each
step consumes at least one character (see `takeDigits_rest_length` and
`skipCurrency_length`), so `fuel` instantiated with the length of the list
never runs out; it only makes the recursion structural for the kernel. -/
def findNumbersAux : Nat → List Char → List ℚ
  | _, [] => []
  | 0, _ => []
  | fuel + 1, c :: rest =>
    if c.isDigit then
      let p := takeDigits rest
      let intPart : ℚ := (digitsToNat (c :: p.1) : ℚ)
      match p.2 with
      | s :: d1 :: d2 :: r' =>
        if (s == '.' || s == ',') && d1.isDigit && d2.isDigit then
          -- the float value `int.frac`, i.e. intPart + cents/100, written in
          -- quotient-free form so the kernel can evaluate it
          (mkRat (100 * digitsToNat (c :: p.1) + (10 * digitVal d1 + digitVal d2) : Nat) 100) ::
            findNumbersAux fuel (skipCurrency r')
        else intPart :: findNumbersAux fuel (skipCurrency p.2)
      | _ => intPart :: findNumbersAux fuel (skipCurrency p.2)
    else findNumbersAux fuel rest

/-- All numeric groups extracted by the price regex. -/
def findNumbers (l : List Char) : List ℚ := findNumbersAux l.length l

/-- Stable insertion sort on rationals, modelling Python `list.sort()`
(which sorts ascending; equal rationals are indistinguishable, so stability
is irrelevant).  Written with structural recursion so it evaluates in the
kernel. -/
def insertAsc (q : ℚ) : List ℚ → List ℚ
  | [] => [q]
  | x :: xs => if q ≤ x then q :: x :: xs else x :: insertAsc q xs

def sortAsc (l : List ℚ) : List ℚ := l.foldr insertAsc []

theorem insertAsc_perm (q : ℚ) : ∀ l : List ℚ, List.Perm (insertAsc q l) (q :: l) := by
  intro l
  induction l with
  | nil => simp [insertAsc]
  | cons x xs ih =>
    simp only [insertAsc]
    by_cases h : q ≤ x
    · simp [h]
    · simp only [h, if_neg, not_false_iff]
      exact List.Perm.trans (ih.cons x) (List.Perm.swap q x xs)

theorem sortAsc_perm : ∀ l : List ℚ, List.Perm (sortAsc l) l := by
  intro l
  induction l with
  | nil => simp [sortAsc]
  | cons x xs ih =>
    simp only [sortAsc, List.foldr_cons]
    exact List.Perm.trans (insertAsc_perm x (sortAsc xs)) (ih.cons x)

theorem insertAsc_sorted (q : ℚ) :
    ∀ l : List ℚ, l.Sorted (· ≤ ·) → (insertAsc q l).Sorted (· ≤ ·) := by
  intro l
  induction l with
  | nil => intro _; simp [insertAsc]
  | cons x xs ih =>
    intro h
    rw [List.sorted_cons] at h
    simp only [insertAsc]
    by_cases hq : q ≤ x
    · rw [if_pos hq, List.sorted_cons]
      refine ⟨?_, List.sorted_cons.mpr h⟩
      intro b hb
      rcases List.mem_cons.mp hb with hb | hb
      · exact hb ▸ hq
      · exact le_trans hq (h.1 b hb)
    · rw [if_neg hq, List.sorted_cons]
      refine ⟨?_, ih h.2⟩
      intro b hb
      have := (insertAsc_perm q xs).mem_iff.mp hb
      rcases List.mem_cons.mp this with hb' | hb'
      · exact hb' ▸ le_of_not_le hq
      · exact h.1 b hb'

theorem sortAsc_sorted : ∀ l : List ℚ, (sortAsc l).Sorted (· ≤ ·) := by
  intro l
  induction l with
  | nil => simp [sortAsc]
  | cons x xs ih => exact insertAsc_sorted x _ ih

/-- The `(price_from, price_to, is_free)` triple returned by `parse_price`. -/
structure PriceResult where
  price_from : ℚ
  price_to : Option ℚ
  is_free : Bool
deriving DecidableEq, Repr

/-- `free_patterns` from `parse_price`. -/
def free_patterns : List String := ["gratuit", "free", "entrée libre", "libre", "0€", "0 €"]

/-- `parse_price` from normalization.py (`price_text.lower().strip()` is the
repeated `stripStr (lowerStr t0)`; the sorted price list is matched on:
one price gives `price_to = None`, several give the last, `prices[-1]`). -/
def parse_price (price_text : Option String) : PriceResult :=
  match price_text with
  | none => ⟨0, none, false⟩
  | some t0 =>
    if t0 = "" then ⟨0, none, false⟩
    else if free_patterns.any (fun p => strContains (stripStr (lowerStr t0)) p) then
      ⟨0, none, true⟩
    else
      match sortAsc (findNumbers (stripStr (lowerStr t0)).data) with
      | [] => ⟨0, none, false⟩
      | [p] => ⟨p, none, decide (p = 0)⟩
      | p :: q :: rest => ⟨p, some ((q :: rest).getLast (by simp)), decide (p = 0)⟩

/-- `normalize_text`: `unicodedata.normalize('NFKC', ·)` is the identity on
every character of the tables and inputs used here and is modelled as the
identity; the rest collapses whitespace runs and strips. -/
def normalize_text (text : Option String) : String :=
  match text with
  | none => ""
  | some t => if t = "" then "" else stripStr (joinSpace (splitWs t))

/-- The alternatives of `re.sub(r'^(à|a|at|from|de|dès)\s*', '', s)`, in the
order the alternation tries them (`a` precedes `at`, so a leading `at` loses
only its `a`; `de` precedes `dès`). -/
def timeConnectors : List String := ["à", "a", "at", "from", "de", "dès"]

def stripTimeConnector (l : List Char) : List Char :=
  match timeConnectors.findSome? (fun p => dropPrefixChars? p.data l) with
  | some rem => rem.dropWhile isWs
  | none => l

/-- Greedy `(\d{1,2})` at the head of the string.  In every time/date pattern
of the source the hour/day/month group is followed by a non-digit, so the
one-digit backtracking alternative of the regex can never succeed when two
digits are available; the greedy split is therefore exact. -/
def splitHour : List Char → Option (Nat × List Char)
  | [] => none
  | [c1] => if c1.isDigit then some (digitVal c1, []) else none
  | c1 :: c2 :: rest =>
    if c1.isDigit then
      if c2.isDigit then some (10 * digitVal c1 + digitVal c2, rest)
      else some (digitVal c1, c2 :: rest)
    else none

/-- `f"{n:02d}"` (also the result of `zfill(2)` on the digit groups used
here, which never exceed two digits). -/
def fmt2 (n : Nat) : String := if n < 10 then "0" ++ toString n else toString n

/-- `_convert_12h`. -/
def convert_12h (h : Nat) (isPm : Bool) : String :=
  let h' := if isPm && h ≠ 12 then h + 12 else if !isPm && h == 12 then 0 else h
  fmt2 h' ++ ":00"

/-- `_convert_12h_full`. -/
def convert_12h_full (h : Nat) (minute : String) (isPm : Bool) : String :=
  let h' := if isPm && h ≠ 12 then h + 12 else if !isPm && h == 12 then 0 else h
  fmt2 h' ++ ":" ++ minute

/-- `^(\d{1,2})[h:](\d{2})$`. -/
def matchHM (l : List Char) : Option String :=
  match splitHour l with
  | some (h, [sep, d1, d2]) =>
    if (sep == 'h' || sep == ':') && d1.isDigit && d2.isDigit then
      some (fmt2 h ++ ":" ++ String.mk [d1, d2])
    else none
  | _ => none

/-- `^(\d{1,2})h$`. -/
def matchHOnly (l : List Char) : Option String :=
  match splitHour l with
  | some (h, ['h']) => some (fmt2 h ++ ":00")
  | _ => none

/-- `^(\d{1,2}):(\d{2})(?::\d{2})?$`. -/
def matchColon (l : List Char) : Option String :=
  match splitHour l with
  | some (h, ':' :: d1 :: d2 :: tail) =>
    if d1.isDigit && d2.isDigit then
      match tail with
      | [] => some (fmt2 h ++ ":" ++ String.mk [d1, d2])
      | [':', e1, e2] =>
        if e1.isDigit && e2.isDigit then some (fmt2 h ++ ":" ++ String.mk [d1, d2]) else none
      | _ => none
    else none
  | _ => none

/-- `^(\d{1,2})\s*(am|pm)$`. -/
def matchAmPm (l : List Char) : Option String :=
  match splitHour l with
  | some (h, rest) =>
    match rest.dropWhile isWs with
    | ['a', 'm'] => some (convert_12h h false)
    | ['p', 'm'] => some (convert_12h h true)
    | _ => none
  | none => none

/-- `^(\d{1,2}):(\d{2})\s*(am|pm)$`. -/
def matchColonAmPm (l : List Char) : Option String :=
  match splitHour l with
  | some (h, ':' :: d1 :: d2 :: rest) =>
    if d1.isDigit && d2.isDigit then
      match rest.dropWhile isWs with
      | ['a', 'm'] => some (convert_12h_full h (String.mk [d1, d2]) false)
      | ['p', 'm'] => some (convert_12h_full h (String.mk [d1, d2]) true)
      | _ => none
    else none
  | _ => none

/-- `normalize_time` from normalization.py: strip, lower, strip a leading
connector word, then try the five anchored patterns in order. -/
def normalize_time (time_str : Option String) : Option String :=
  match time_str with
  | none => none
  | some t0 =>
    if t0 = "" then none
    else
      let l := stripTimeConnector ((stripChars t0.data).map Char.toLower)
      matchHM l <|> matchHOnly l <|> matchColon l <|> matchAmPm l <|> matchColonAmPm l

/-- `get_time_of_day`: bucket the parsed hour; anything unparsed is `soir`. -/
def get_time_of_day (time_str : Option String) : String :=
  match time_str with
  | none => "soir"
  | some t =>
    if t = "" then "soir"
    else
      match normalize_time (some t) with
      | none => "soir"
      | some normalized =>
        let hour := digitsToNat (normalized.data.takeWhile (fun c => c != ':'))
        if 6 ≤ hour && hour < 12 then "matin"
        else if 12 ≤ hour && hour < 18 then "apres_midi"
        else if 18 ≤ hour && hour < 23 then "soir"
        else "nuit"

/-- Leftmost match of `750(\d{2})` (`re.search` advances one character at a
time on failure). -/
def searchPostal : List Char → Option Nat
  | '7' :: '5' :: '0' :: d1 :: d2 :: rest =>
    if d1.isDigit && d2.isDigit then some (10 * digitVal d1 + digitVal d2)
    else searchPostal ('5' :: '0' :: d1 :: d2 :: rest)
  | _ :: rest => searchPostal rest
  | [] => none

/-- First character of the ordinal suffixes `e|ème|eme|er|è` (IGNORECASE);
the group is captured before the suffix, so only this first character
decides whether the pattern matches. -/
def isOrdSuffixStart (c : Char) : Bool := c == 'e' || c == 'E' || c == 'è' || c == 'È'

/-- Leftmost match of `(\d{1,2})(?:e|ème|eme|er|è)\s*(?:arr|arrondissement)?`,
returning the digit group (the trailing optional part never constrains it). -/
def searchOrdinal : List Char → Option Nat
  | c1 :: c2 :: c3 :: rest =>
    if c1.isDigit && c2.isDigit && isOrdSuffixStart c3 then
      some (10 * digitVal c1 + digitVal c2)
    else if c1.isDigit && isOrdSuffixStart c2 then some (digitVal c1)
    else searchOrdinal (c2 :: c3 :: rest)
  | [c1, c2] => if c1.isDigit && isOrdSuffixStart c2 then some (digitVal c1) else none
  | _ => none

/-- Case-insensitive (ASCII) prefix drop. -/
def dropPrefixCI : List Char → List Char → Option (List Char)
  | [], l => some l
  | _ :: _, [] => none
  | a :: as, b :: bs => if a == b.toLower then dropPrefixCI as bs else none

/-- Leftmost match of `Paris\s*(\d{1,2})` (IGNORECASE), returning the digits. -/
def searchParisNum : List Char → Option Nat
  | [] => none
  | c :: rest =>
    match dropPrefixCI ['p', 'a', 'r', 'i', 's'] (c :: rest) with
    | some rem =>
      (match rem.dropWhile isWs with
       | d1 :: d2 :: _ =>
         if d1.isDigit then
           if d2.isDigit then some (10 * digitVal d1 + digitVal d2) else some (digitVal d1)
         else searchParisNum rest
       | [d1] => if d1.isDigit then some (digitVal d1) else searchParisNum rest
       | [] => searchParisNum rest)
    | none => searchParisNum rest

/-- `extract_arrondissement`: each pattern contributes its first match; an
out-of-range value falls through to the next pattern. -/
def extract_arrondissement (address : Option String) : Option Int :=
  match address with
  | none => none
  | some a =>
    if a = "" then none
    else
      let l := a.data
      let step (r : Option Nat) (next : Option Int) : Option Int :=
        match r with
        | some n => if 1 ≤ n && n ≤ 20 then some (n : Int) else next
        | none => next
      step (searchPostal l) (step (searchOrdinal l) (step (searchParisNum l) none))

/-- `normalize_address`. -/
def normalize_address (address : Option String) : String :=
  match address with
  | none => ""
  | some a =>
    if a = "" then ""
    else
      let a' := normalize_text (some a)
      match extract_arrondissement (some a') with
      | some _ => if strContains (lowerStr a') "paris" then a' else a' ++ ", Paris"
      | none => a'

/-! ## Models (`src/backend/core/models.py`) -/

/-- `CATEGORY_ALIASES` from models.py. -/
def CATEGORY_ALIASES : List (String × String) :=
  [("concert", "musique"), ("concerts", "musique"), ("music", "musique"),
   ("live music", "musique"), ("classical", "musique"), ("classique", "musique"),
   ("jazz", "musique"), ("rock", "musique"), ("pop", "musique"),
   ("electro", "musique"), ("electronic", "musique"),
   ("opera", "spectacles"), ("opéra", "spectacles"),
   ("theater", "spectacles"), ("theatre", "spectacles"), ("théâtre", "spectacles"),
   ("comedy", "spectacles"), ("comédie", "spectacles"), ("stand-up", "spectacles"),
   ("standup", "spectacles"), ("humour", "spectacles"), ("circus", "spectacles"),
   ("cirque", "spectacles"), ("danse", "spectacles"), ("dance", "spectacles"),
   ("ballet", "spectacles"), ("cabaret", "spectacles"),
   ("exhibition", "arts_visuels"), ("exposition", "arts_visuels"), ("expo", "arts_visuels"),
   ("museum", "arts_visuels"), ("musée", "arts_visuels"), ("gallery", "arts_visuels"),
   ("galerie", "arts_visuels"), ("art", "arts_visuels"), ("photography", "arts_visuels"),
   ("photographie", "arts_visuels"), ("vernissage", "arts_visuels"),
   ("workshop", "ateliers"), ("atelier", "ateliers"), ("class", "ateliers"),
   ("cours", "ateliers"), ("ceramics", "ateliers"), ("céramique", "ateliers"),
   ("pottery", "ateliers"), ("poterie", "ateliers"), ("painting", "ateliers"),
   ("peinture", "ateliers"), ("drawing", "ateliers"), ("dessin", "ateliers"),
   ("craft", "ateliers"), ("artisanat", "ateliers"),
   ("sport", "sport"), ("fitness", "sport"), ("yoga", "sport"),
   ("running", "sport"), ("cycling", "sport"), ("vélo", "sport"),
   ("food", "gastronomie"), ("wine", "gastronomie"), ("vin", "gastronomie"),
   ("cooking", "gastronomie"), ("cuisine", "gastronomie"), ("gastronomie", "gastronomie"),
   ("dégustation", "gastronomie"), ("tasting", "gastronomie"), ("brunch", "gastronomie"),
   ("conference", "culture"), ("conférence", "culture"), ("talk", "culture"),
   ("lecture", "culture"), ("film", "culture"), ("cinema", "culture"),
   ("cinéma", "culture"), ("movie", "culture"), ("visite", "culture"),
   ("visit", "culture"), ("guided tour", "culture"), ("visite guidée", "culture"),
   ("party", "nightlife"), ("soirée", "nightlife"), ("club", "nightlife"),
   ("dj", "nightlife"), ("bar", "nightlife"), ("nightlife", "nightlife"),
   ("meetup", "rencontres"), ("networking", "rencontres"), ("afterwork", "rencontres"),
   ("speed dating", "rencontres"), ("social", "rencontres")]

/-- `get_category_from_alias`. -/
def get_category_from_alias (a : String) : String :=
  (CATEGORY_ALIASES.lookup (stripStr (lowerStr a))).getD "culture"

/-- `ScrapedEvent` from models.py (`raw_data`, which `normalize_event` never
reads, is omitted). -/
structure ScrapedEvent where
  title : String
  description : String
  source_name : String
  source_event_url : String
  date_start : Option String := none
  date_end : Option String := none
  time_start : Option String := none
  time_end : Option String := none
  location_name : Option String := none
  address : Option String := none
  price_text : Option String := none
  price_from : Option ℚ := none
  price_to : Option ℚ := none
  is_free : Bool := false
  image_url : Option String := none
  ticket_url : Option String := none
  has_direct_ticket_button : Bool := false
  organizer_name : Option String := none
  raw_category : Option String := none
  raw_tags : List String := []
deriving DecidableEq, Repr

/-- `UnifiedEvent` from models.py. -/
structure UnifiedEvent where
  id : String
  title : String
  description : String
  category : String
  date_start : String
  sub_category : Option String := none
  tags : List String := []
  date_end : Option String := none
  time_start : Option String := none
  time_end : Option String := none
  time_of_day : String := "soir"
  timezone : String := "Europe/Paris"
  location_name : String := ""
  address : String := ""
  arrondissement : Option Int := none
  latitude : Option ℚ := none
  longitude : Option ℚ := none
  price_from : ℚ := 0
  price_to : Option ℚ := none
  currency : String := "EUR"
  is_free : Bool := false
  image_url : Option String := none
  organizer_name : Option String := none
  source_name : String := ""
  source_event_url : String := ""
  ticket_url : Option String := none
  has_direct_ticket_button : Bool := false
  created_at : String := ""
  updated_at : String := ""
  verified : Bool := false
deriving DecidableEq, Repr

/-- `UnifiedEvent.generate_id` builds the key
`f"{title.lower().strip()}|{date}|{location.lower().strip()}|{source}"` and
returns the first 16 hex characters of its SHA-256.  The digest is a fixed
deterministic function of this key; the model returns the key itself, and no
claim relies on properties of the hash. -/
def generate_id (title date location source : String) : String :=
  stripStr (lowerStr title) ++ "|" ++ date ++ "|" ++ stripStr (lowerStr location) ++ "|" ++ source

/-- The values read off the wall clock during one `normalize_event` call:
`datetime.now().strftime('%Y-%m-%d')` (date fallback), `datetime.now().year`
(year completion in `normalize_date`), and `datetime.now().isoformat()`
(the `created_at`/`updated_at` default factories). -/
structure Clock where
  todayStr : String
  curYear : Nat
  nowIso : String
deriving DecidableEq, Repr

/-! ### `normalize_date` — the source lower-cases every `strptime` format
(`fmt.lower()`), so `%Y`→`%y` (two-digit year), `%B`→`%b` (abbreviated month),
`%A`→`%a`, and `%H`→`%h` which is an invalid directive: the three ISO
date-time formats always raise `ValueError` and never match. -/

/-- French month names replaced (in table order) by the lower-cased English
forms, after lower-casing the whole string. -/
def french_months : List (String × String) :=
  [("janvier", "January"), ("février", "February"), ("mars", "March"),
   ("avril", "April"), ("mai", "May"), ("juin", "June"),
   ("juillet", "July"), ("août", "August"), ("septembre", "September"),
   ("octobre", "October"), ("novembre", "November"), ("décembre", "December"),
   ("jan", "Jan"), ("fév", "Feb"), ("fev", "Feb"), ("mar", "Mar"),
   ("avr", "Apr"), ("juil", "Jul"), ("aoû", "Aug"), ("aou", "Aug"),
   ("sep", "Sep"), ("oct", "Oct"), ("nov", "Nov"), ("déc", "Dec"), ("dec", "Dec")]

def french_days : List (String × String) :=
  [("lundi", "Monday"), ("mardi", "Tuesday"), ("mercredi", "Wednesday"),
   ("jeudi", "Thursday"), ("vendredi", "Friday"), ("samedi", "Saturday"),
   ("dimanche", "Sunday")]

/-- `normalized = date_str.lower()` followed by the French→English
replacements of `normalize_date`. -/
def applyFrench (s : String) : String :=
  let s1 := french_months.foldl (fun acc p => strReplace acc p.1 (lowerStr p.2)) (lowerStr s)
  french_days.foldl (fun acc p => strReplace acc p.1 (lowerStr p.2)) s1

/-- `%y`: exactly two digits; `_strptime` maps `0..68` to `2000..2068` and
`69..99` to `1969..1999`. -/
def parseY2 : List Char → Option (Nat × List Char)
  | c1 :: c2 :: rest =>
    if c1.isDigit && c2.isDigit then
      let v := 10 * digitVal c1 + digitVal c2
      some ((if v ≤ 68 then 2000 + v else 1900 + v), rest)
    else none
  | _ => none

/-- `%d`: `(3[01]|[12]\d|0[1-9]|[1-9])`; the two-digit alternatives are tried
first, and the one-digit fallback can only matter when the second character
is not a digit (every format continues with a non-digit). -/
def parseDay : List Char → Option (Nat × List Char)
  | [] => none
  | [c1] => if c1.isDigit && c1 != '0' then some (digitVal c1, []) else none
  | c1 :: c2 :: rest =>
    if c1.isDigit && c2.isDigit then
      if (c1 == '3' && (c2 == '0' || c2 == '1')) || c1 == '1' || c1 == '2' ||
         (c1 == '0' && c2 != '0') then
        some (10 * digitVal c1 + digitVal c2, rest)
      else none
    else if c1.isDigit && c1 != '0' then some (digitVal c1, c2 :: rest)
    else none

/-- `%m`: `(1[0-2]|0[1-9]|[1-9])`, same greedy reasoning as `%d`. -/
def parseMonthNum : List Char → Option (Nat × List Char)
  | [] => none
  | [c1] => if c1.isDigit && c1 != '0' then some (digitVal c1, []) else none
  | c1 :: c2 :: rest =>
    if c1.isDigit && c2.isDigit then
      if (c1 == '1' && (c2 == '0' || c2 == '1' || c2 == '2')) || (c1 == '0' && c2 != '0') then
        some (10 * digitVal c1 + digitVal c2, rest)
      else none
    else if c1.isDigit && c1 != '0' then some (digitVal c1, c2 :: rest)
    else none

/-- `%b`: the English abbreviated month names (the input is already
lower-cased); the empty alternative of `_strptime` can only lead to month 0,
which the date constructor rejects, so it is omitted. -/
def monthAbbrs : List (String × Nat) :=
  [("jan", 1), ("feb", 2), ("mar", 3), ("apr", 4), ("may", 5), ("jun", 6),
   ("jul", 7), ("aug", 8), ("sep", 9), ("oct", 10), ("nov", 11), ("dec", 12)]

def parseMonthAbbr (l : List Char) : Option (Nat × List Char) :=
  monthAbbrs.findSome? (fun p => (dropPrefixChars? p.1.data l).map (fun rem => (p.2, rem)))

/-- `%a`: abbreviated weekday names. -/
def dayAbbrs : List String := ["mon", "tue", "wed", "thu", "fri", "sat", "sun"]

def parseDayAbbr (l : List Char) : Option (List Char) :=
  dayAbbrs.findSome? (fun p => dropPrefixChars? p.data l)

/-- A whitespace run in a `strptime` format (`\s+`). -/
def parseWs1 : List Char → Option (List Char)
  | c :: rest => if isWs c then some (rest.dropWhile isWs) else none
  | [] => none

def parseLit (ch : Char) : List Char → Option (List Char)
  | c :: rest => if c == ch then some rest else none
  | [] => none

def isLeap (y : Nat) : Bool := (y % 4 == 0 && y % 100 != 0) || y % 400 == 0

def daysInMonth (y m : Nat) : Nat :=
  if m == 2 then (if isLeap y then 29 else 28)
  else if m == 4 || m == 6 || m == 9 || m == 11 then 30
  else 31

/-- The `datetime` constructor check (`day is out of range for month`);
month range is already guaranteed by the regexes. -/
def validDate (y m d : Nat) : Bool := 1 ≤ d && d ≤ daysInMonth y m

/-- `'%y-%m-%d'` (full match, then date validity). -/
def fmtYMD (l : List Char) : Option (Nat × Nat × Nat) := do
  let (y, l1) ← parseY2 l
  let l2 ← parseLit '-' l1
  let (m, l3) ← parseMonthNum l2
  let l4 ← parseLit '-' l3
  let (d, l5) ← parseDay l4
  if l5.isEmpty && validDate y m d then pure (y, m, d) else none

/-- `'%d/%m/%y'` and `'%d-%m-%y'`, parameterised by the separator. -/
def fmtDMY (sep : Char) (l : List Char) : Option (Nat × Nat × Nat) := do
  let (d, l1) ← parseDay l
  let l2 ← parseLit sep l1
  let (m, l3) ← parseMonthNum l2
  let l4 ← parseLit sep l3
  let (y, l5) ← parseY2 l4
  if l5.isEmpty && validDate y m d then pure (y, m, d) else none

/-- `'%d %b %y'` (which both `'%d %B %Y'` and `'%d %b %Y'` become). -/
def fmtDMonY (l : List Char) : Option (Nat × Nat × Nat) := do
  let (d, l1) ← parseDay l
  let l2 ← parseWs1 l1
  let (m, l3) ← parseMonthAbbr l2
  let l4 ← parseWs1 l3
  let (y, l5) ← parseY2 l4
  if l5.isEmpty && validDate y m d then pure (y, m, d) else none

/-- `'%d %b'`: the year defaults to 1900 (validated against 1900, so
`"29 feb"` never parses), and the caller replaces it by the current year. -/
def fmtDMon (l : List Char) : Option (Nat × Nat) := do
  let (d, l1) ← parseDay l
  let l2 ← parseWs1 l1
  let (m, l3) ← parseMonthAbbr l2
  if l3.isEmpty && validDate 1900 m d then pure (m, d) else none

/-- `'%a %d %b %y'`. -/
def fmtADMonY (l : List Char) : Option (Nat × Nat × Nat) := do
  let l1 ← parseDayAbbr l
  let l2 ← parseWs1 l1
  fmtDMonY l2

def fmt4 (n : Nat) : String :=
  if n < 10 then "000" ++ toString n
  else if n < 100 then "00" ++ toString n
  else if n < 1000 then "0" ++ toString n
  else toString n

/-- `dt.strftime('%Y-%m-%d')`. -/
def isoDate (y m d : Nat) : String := fmt4 y ++ "-" ++ fmt2 m ++ "-" ++ fmt2 d

/-- Greedy candidates for `(\d{1,2})` inside the fallback regexes (two-digit
form first, as the regex alternation tries it first). -/
def try12 : List Char → List (Nat × List Char)
  | [] => []
  | [c1] => if c1.isDigit then [(digitVal c1, [])] else []
  | c1 :: c2 :: rest =>
    if c1.isDigit then
      if c2.isDigit then [(10 * digitVal c1 + digitVal c2, rest), (digitVal c1, c2 :: rest)]
      else [(digitVal c1, c2 :: rest)]
    else []

def parse4Digits : List Char → Option (Nat × List Char)
  | d1 :: d2 :: d3 :: d4 :: rest =>
    if d1.isDigit && d2.isDigit && d3.isDigit && d4.isDigit then
      some (digitsToNat [d1, d2, d3, d4], rest)
    else none
  | _ => none

def parseSlashDash : List Char → Option (List Char)
  | c :: rest => if c == '/' || c == '-' then some rest else none
  | [] => none

/-- `(\d{1,2})[/\-](\d{1,2})[/\-](\d{4})` anchored at the current position. -/
def matchP1At (l : List Char) : Option (Nat × Nat × Nat) :=
  (try12 l).findSome? fun p =>
    (parseSlashDash p.2).bind fun r2 =>
      (try12 r2).findSome? fun q =>
        (parseSlashDash q.2).bind fun r4 =>
          (parse4Digits r4).map fun y => (p.1, q.1, y.1)

/-- `re.search` of pattern 1 (leftmost match wins, no range validation). -/
def searchP1 : List Char → Option (Nat × Nat × Nat)
  | [] => none
  | c :: rest => matchP1At (c :: rest) <|> searchP1 rest

/-- `(\d{4})[/\-](\d{1,2})[/\-](\d{1,2})` anchored at the current position. -/
def matchP2At (l : List Char) : Option (Nat × Nat × Nat) :=
  (parse4Digits l).bind fun y =>
    (parseSlashDash y.2).bind fun r2 =>
      (try12 r2).findSome? fun p =>
        (parseSlashDash p.2).bind fun r4 =>
          (try12 r4).findSome? fun q => some (y.1, p.1, q.1)

/-- `re.search` of pattern 2. -/
def searchP2 : List Char → Option (Nat × Nat × Nat)
  | [] => none
  | c :: rest => matchP2At (c :: rest) <|> searchP2 rest

/-- `normalize_date` from normalization.py.  Only `datetime.now().year`
(for the year-less `'%d %b'` format) is read from the clock, so it is the
only clock component taken.  The `strptime` formats are the lower-cased ones
actually tried by the source; the regex fallbacks run on the stripped
original string. -/
def normalize_date (curYear : Nat) (date_str : Option String) : Option String :=
  match date_str with
  | none => none
  | some s0 =>
    if s0 = "" then none
    else
      let s := stripStr s0
      let l := (applyFrench s).data
      ((fmtYMD l).map fun t => isoDate t.1 t.2.1 t.2.2) <|>
      ((fmtDMY '/' l).map fun t => isoDate t.1 t.2.1 t.2.2) <|>
      ((fmtDMY '-' l).map fun t => isoDate t.1 t.2.1 t.2.2) <|>
      ((fmtDMonY l).map fun t => isoDate t.1 t.2.1 t.2.2) <|>
      ((fmtDMon l).map fun t => isoDate curYear t.1 t.2) <|>
      ((fmtADMonY l).map fun t => isoDate t.1 t.2.1 t.2.2) <|>
      ((searchP1 s.data).map fun t => fmt4 t.2.2 ++ "-" ++ fmt2 t.2.1 ++ "-" ++ fmt2 t.1) <|>
      ((searchP2 s.data).map fun t => fmt4 t.1 ++ "-" ++ fmt2 t.2.1 ++ "-" ++ fmt2 t.2.2)

/-- Lines 263–269 of normalization.py: numeric scraper fields win over the
free-text parser, and `is_free = scraped.is_free or price_from == 0`. -/
def resolve_price (scraped : ScrapedEvent) : PriceResult :=
  match scraped.price_from with
  | some pf => ⟨pf, scraped.price_to, scraped.is_free || decide (pf = 0)⟩
  | none => parse_price scraped.price_text

/-- The category block of `normalize_event` (override, then raw alias, then
the `'culture'` default; Python truthiness, so empty strings fall through). -/
def resolve_category (category_override : Option String) (raw_category : Option String) :
    String :=
  let fromRaw :=
    match raw_category with
    | some rc => if rc ≠ "" then get_category_from_alias rc else "culture"
    | none => "culture"
  match category_override with
  | some c => if c ≠ "" then c else fromRaw
  | none => fromRaw

/-- `normalize_event` from normalization.py, with the wall clock explicit. -/
def normalize_event (clock : Clock) (scraped : ScrapedEvent)
    (category_override : Option String := none) : UnifiedEvent :=
  let date_start := (normalize_date clock.curYear scraped.date_start).getD clock.todayStr
  let location_name :=
    let n := normalize_text scraped.location_name
    if n = "" then "Paris" else n
  let address := normalize_address scraped.address
  let pr := resolve_price scraped
  { id := generate_id scraped.title date_start location_name scraped.source_name
    title := normalize_text (some scraped.title)
    description := normalize_text (some scraped.description)
    category := resolve_category category_override scraped.raw_category
    date_start := date_start
    sub_category := none
    tags := scraped.raw_tags
    date_end := normalize_date clock.curYear scraped.date_end
    time_start := normalize_time scraped.time_start
    time_end := normalize_time scraped.time_end
    time_of_day := get_time_of_day scraped.time_start
    location_name := location_name
    address := address
    arrondissement :=
      (extract_arrondissement (some address)).orElse
        (fun _ => extract_arrondissement (some location_name))
    price_from := pr.price_from
    price_to := pr.price_to
    is_free := pr.is_free
    image_url := scraped.image_url
    organizer_name := scraped.organizer_name
    source_name := scraped.source_name
    source_event_url := scraped.source_event_url
    ticket_url :=
      (match scraped.ticket_url with
       | some t => if t ≠ "" then some t else some scraped.source_event_url
       | none => some scraped.source_event_url)
    has_direct_ticket_button := scraped.has_direct_ticket_button
    created_at := clock.nowIso
    updated_at := clock.nowIso
    verified := false }

/-! ## Deduplicator (`src/backend/core/deduplicate.py`) -/

/-- An event dictionary as consumed by `EventDeduplicator` (the keys the
source reads; a missing key is `none`, matching `dict.get`).  Keys the code
never touches are all treated alike by `canonical.copy()` and are outside
the model. -/
structure EventDict where
  id : Option String := none
  title : Option String := none
  description : Option String := none
  date_start : Option String := none
  date : Option String := none
  location_name : Option String := none
  venue : Option String := none
  address : Option String := none
  arrondissement : Option Int := none
  latitude : Option ℚ := none
  longitude : Option ℚ := none
  price_from : Option ℚ := none
  price_to : Option ℚ := none
  price : Option ℚ := none
  time_start : Option String := none
  time_end : Option String := none
  organizer_name : Option String := none
  image_url : Option String := none
  ticket_url : Option String := none
  has_direct_ticket_button : Option Bool := none
  tags : Option (List String) := none
  source_name : Option String := none
deriving DecidableEq, Repr

/-- Python truthiness of an optional string (`None` and `""` are falsy). -/
def truthyS : Option String → Bool
  | some s => s != ""
  | none => false

/-- Python truthiness of an optional number (`None` and `0` are falsy). -/
def truthyQ : Option ℚ → Bool
  | some q => q != 0
  | none => false

def truthyI : Option Int → Bool
  | some n => n != 0
  | none => false

def truthyB : Option Bool → Bool
  | some b => b
  | none => false

def truthyL : Option (List String) → Bool
  | some l => !l.isEmpty
  | none => false

/-- `DuplicateMatch` from deduplicate.py. -/
structure DuplicateMatch where
  canonical_id : String
  duplicate_id : String
  similarity_score : ℚ
  match_reason : String
deriving DecidableEq, Repr

/-- The two thresholds of `EventDeduplicator.__init__`. -/
structure DedupConfig where
  title_threshold : ℚ := 85
  location_threshold : ℚ := 75
deriving DecidableEq, Repr

/-- The stop-word list of `normalize_for_comparison` (the accented entries
are dead: the text is accent-stripped before the filter, in the source as
here). -/
def stopwords : List String :=
  ["le", "la", "les", "de", "du", "des", "un", "une", "the", "a", "an",
   "et", "and", "à", "au", "aux", "en", "dans", "sur", "par", "pour",
   "concert", "spectacle", "exposition", "atelier", "soirée", "soiree",
   "paris", "france"]

/-- `unicodedata.normalize('NFKD', ·)` followed by removal of combining
marks strips accents; on the Latin letters occurring in this domain it is
the mapping below, and all other characters are unchanged. -/
def stripAccent (c : Char) : Char :=
  if c == 'à' || c == 'â' || c == 'ä' then 'a'
  else if c == 'é' || c == 'è' || c == 'ê' || c == 'ë' then 'e'
  else if c == 'î' || c == 'ï' then 'i'
  else if c == 'ô' || c == 'ö' then 'o'
  else if c == 'ù' || c == 'û' || c == 'ü' then 'u'
  else if c == 'ç' then 'c'
  else if c == 'À' || c == 'Â' || c == 'Ä' then 'A'
  else if c == 'É' || c == 'È' || c == 'Ê' || c == 'Ë' then 'E'
  else if c == 'Î' || c == 'Ï' then 'I'
  else if c == 'Ô' || c == 'Ö' then 'O'
  else if c == 'Ù' || c == 'Û' || c == 'Ü' then 'U'
  else if c == 'Ç' then 'C'
  else c

/-- `\w` of `re.sub(r'[^\w\s]', '', ·)` on the post-stripping alphabet. -/
def isWordChar (c : Char) : Bool := c.isAlpha || c.isDigit || c == '_'

/-- `EventDeduplicator.normalize_for_comparison`. -/
def normalize_for_comparison (text : String) : String :=
  if text = "" then ""
  else
    let t1 := String.mk ((text.data.map stripAccent).map Char.toLower)
    let ws := (splitWs t1).filter (fun w => !stopwords.contains w)
    let t2 := String.mk ((joinSpace ws).data.filter (fun c => isWordChar c || isWs c))
    joinSpace (splitWs t2)

/-- `EventDeduplicator.calculate_similarity` in the environment without
rapidfuzz (the import-guarded fallback: Jaccard word-set overlap × 100).
The rapidfuzz branch blends four fuzzy scores; every theorem about the
decision logic is stated for an arbitrary similarity function, and this
concrete fallback instantiates them. -/
def calculate_similarity (text1 text2 : String) : ℚ :=
  let norm1 := normalize_for_comparison text1
  let norm2 := normalize_for_comparison text2
  if norm1 = "" || norm2 = "" then 0
  else
    let words1 := (splitWs norm1).dedup
    let words2 := (splitWs norm2).dedup
    if words1.isEmpty || words2.isEmpty then 0
    else
      let inter := words1.filter (fun w => words2.contains w)
      let union := words1 ++ words2.filter (fun w => !words1.contains w)
      -- `(len(inter) / len(union)) * 100`, written in quotient-free form so
      -- the kernel can evaluate it
      mkRat (100 * inter.length : Nat) union.length

/-- Floor of a rational, executable in the kernel. -/
def ratFloor (q : ℚ) : Int := Int.fdiv q.num (q.den : Int)

/-- Python `f"{x:.0f}"` rounding (half to even) on the exact rational; the
claims never depend on the reason text this feeds.  The fractional part
`q - ⌊q⌋ = (q.num - ⌊q⌋·q.den)/q.den` is compared with `1/2` by
cross-multiplication, keeping the computation in `Int`. -/
def fmtDot0 (q : ℚ) : Int :=
  let f := ratFloor q
  let r2 := 2 * (q.num - f * (q.den : Int))
  if r2 < (q.den : Int) then f
  else if r2 > (q.den : Int) then f + 1
  else if f % 2 = 0 then f else f + 1

/-- `event.get('date_start') or event.get('date')`. -/
def effDate (e : EventDict) : Option String :=
  if truthyS e.date_start then e.date_start else e.date

/-- `event.get('location_name') or event.get('venue', '')`. -/
def locOf (e : EventDict) : String :=
  match e.location_name with
  | some s => if s != "" then s else e.venue.getD ""
  | none => e.venue.getD ""

/-- `EventDeduplicator.are_duplicates`, parameterised by the similarity
function (`calculate_similarity` instantiates it); returns
`(is_duplicate, similarity_score, reason)`. -/
def are_duplicatesWith (simFn : String → String → ℚ) (cfg : DedupConfig)
    (event1 event2 : EventDict) : Bool × ℚ × String :=
  if effDate event1 ≠ effDate event2 then (false, 0, "")
  else if simFn (event1.title.getD "") (event2.title.getD "") < cfg.title_threshold then
    (false, simFn (event1.title.getD "") (event2.title.getD ""), "")
  else if (locOf event1 != "") && (locOf event2 != "") &&
      decide (simFn (locOf event1) (locOf event2) < cfg.location_threshold) then
    (false, simFn (event1.title.getD "") (event2.title.getD ""), "")
  else if (event1.address.getD "" != "") && (event2.address.getD "" != "") &&
      decide (simFn (event1.address.getD "") (event2.address.getD "") > 80) then
    (true,
      max (simFn (event1.title.getD "") (event2.title.getD ""))
        (simFn (event1.address.getD "") (event2.address.getD "")),
      "title:" ++ toString (fmtDot0 (simFn (event1.title.getD "") (event2.title.getD ""))) ++
        "%, address:" ++
        toString (fmtDot0 (simFn (event1.address.getD "") (event2.address.getD ""))) ++ "%")
  else
    (true, simFn (event1.title.getD "") (event2.title.getD ""),
      "title:" ++ toString (fmtDot0 (simFn (event1.title.getD "") (event2.title.getD ""))) ++ "%")

/-- `trusted_sources` from `_choose_canonical`. -/
def trusted_sources : List String := ["philharmonie", "opera", "louvre", "orsay", "pompidou"]

/-- `score_completeness` inside `_choose_canonical`. -/
def score_completeness (e : EventDict) : Nat :=
  (if truthyS e.ticket_url && truthyB e.has_direct_ticket_button then 10
   else if truthyS e.ticket_url then 5 else 0) +
  (if truthyS e.image_url then 3 else 0) +
  (let d := (e.description.getD "").length
   if d > 200 then 3 else if d > 50 then 1 else 0) +
  (if truthyQ e.price_from || truthyQ e.price then 2 else 0) +
  (if trusted_sources.any (fun t => strContains (lowerStr (e.source_name.getD "")) t)
   then 5 else 0)

/-- `EventDeduplicator._choose_canonical` (ties keep the first argument). -/
def choose_canonical (event1 event2 : EventDict) : EventDict × EventDict :=
  if score_completeness event1 ≥ score_completeness event2 then (event1, event2)
  else (event2, event1)

/-- The bucket key of `find_duplicates`:
`event.get('date_start') or event.get('date', '')`. -/
def bucketKey (e : EventDict) : String :=
  if truthyS e.date_start then e.date_start.getD "" else e.date.getD ""

/-- Append an event to its date bucket, creating the bucket at the end on
first sight (Python dict insertion order). -/
def addToGroup : List (String × List EventDict) → String → EventDict →
    List (String × List EventDict)
  | [], d, e => [(d, [e])]
  | (k, es) :: rest, d, e =>
    if k = d then (k, es ++ [e]) :: rest else (k, es) :: addToGroup rest d e

/-- The `by_date` grouping of `find_duplicates` (events with a falsy date
key are never bucketed, hence never compared). -/
def groupByDate (events : List EventDict) : List (String × List EventDict) :=
  events.foldl (fun acc e =>
    let d := bucketKey e
    if d = "" then acc else addToGroup acc d e) []

/-- Lexicographic comparison by code point, Python `sorted` on strings. -/
def leChars : List Char → List Char → Bool
  | [], _ => true
  | _ :: _, [] => false
  | a :: as, b :: bs => if a == b then leChars as bs else decide (a < b)

/-- `tuple(sorted([id1, id2]))`. -/
def sortPair (a b : String) : String × String :=
  if leChars a.data b.data then (a, b) else (b, a)

/-- The loop state of `find_duplicates`: the `seen_pairs` set (shared across
all buckets) and the matches accumulated so far. -/
abbrev DedupState := List (String × String) × List DuplicateMatch

/-- The inner loop `for event2 in date_events[i+1:]` of `find_duplicates`,
with `event1` at index `i` (whose absent-id defaults are `str(i)` and
`str(i+1)`). -/
def innerLoop (simFn : String → String → ℚ) (cfg : DedupConfig) (i : Nat)
    (event1 : EventDict) : List EventDict → DedupState → DedupState
  | [], st => st
  | event2 :: rest, st =>
    let id1 := event1.id.getD (toString i)
    let id2 := event2.id.getD (toString (i + 1))
    let pr := sortPair id1 id2
    if st.1.contains pr then innerLoop simFn cfg i event1 rest st
    else
      let seen := st.1 ++ [pr]
      let r := are_duplicatesWith simFn cfg event1 event2
      if r.1 then
        let cd := choose_canonical event1 event2
        innerLoop simFn cfg i event1 rest
          (seen, st.2 ++ [⟨cd.1.id.getD "", cd.2.id.getD "", r.2.1, r.2.2⟩])
      else innerLoop simFn cfg i event1 rest (seen, st.2)

/-- The outer `for i, event1 in enumerate(date_events)` loop. -/
def bucketLoop (simFn : String → String → ℚ) (cfg : DedupConfig) :
    Nat → List EventDict → DedupState → DedupState
  | _, [], st => st
  | i, e1 :: rest, st => bucketLoop simFn cfg (i + 1) rest (innerLoop simFn cfg i e1 rest st)

/-- `EventDeduplicator.find_duplicates`, parameterised by the similarity
function. -/
def find_duplicatesWith (simFn : String → String → ℚ) (cfg : DedupConfig)
    (events : List EventDict) : List DuplicateMatch :=
  ((groupByDate events).foldl (fun st p => bucketLoop simFn cfg 0 p.2 st) ([], [])).2

/-- `set(a) | set(b)` materialised in first-occurrence order (Python set
iteration order is unspecified; the tag claims are stated set-wise). -/
def tagsUnion (a b : List String) : List String := (a ++ b).dedup

/-- `EventDeduplicator.merge_events`: the fill-if-empty loop over the fixed
field list, then the direct-booking override, the tag union, and the
longer-description rule.  The sequential dict updates of the source commute
into the per-field form below: the merge loop never writes
`has_direct_ticket_button` or `tags`, so the override tests the canonical
flag and the union starts from the canonical tags; the longer-description
rule compares against the already-filled description. -/
def merge_events (canonical duplicate : EventDict) : EventDict :=
  let fillDescription :=
    if !truthyS canonical.description && truthyS duplicate.description then
      duplicate.description else canonical.description
  let bookingOverride :=
    truthyB duplicate.has_direct_ticket_button && truthyS duplicate.ticket_url &&
      !truthyB canonical.has_direct_ticket_button
  { canonical with
    description :=
      if (duplicate.description.getD "").length > (fillDescription.getD "").length then
        duplicate.description else fillDescription,
    image_url :=
      if !truthyS canonical.image_url && truthyS duplicate.image_url then
        duplicate.image_url else canonical.image_url,
    ticket_url :=
      if bookingOverride then duplicate.ticket_url
      else if !truthyS canonical.ticket_url && truthyS duplicate.ticket_url then
        duplicate.ticket_url else canonical.ticket_url,
    has_direct_ticket_button :=
      if bookingOverride then some true else canonical.has_direct_ticket_button,
    address :=
      if !truthyS canonical.address && truthyS duplicate.address then
        duplicate.address else canonical.address,
    arrondissement :=
      if !truthyI canonical.arrondissement && truthyI duplicate.arrondissement then
        duplicate.arrondissement else canonical.arrondissement,
    latitude :=
      if !truthyQ canonical.latitude && truthyQ duplicate.latitude then
        duplicate.latitude else canonical.latitude,
    longitude :=
      if !truthyQ canonical.longitude && truthyQ duplicate.longitude then
        duplicate.longitude else canonical.longitude,
    price_from :=
      if !truthyQ canonical.price_from && truthyQ duplicate.price_from then
        duplicate.price_from else canonical.price_from,
    price_to :=
      if !truthyQ canonical.price_to && truthyQ duplicate.price_to then
        duplicate.price_to else canonical.price_to,
    time_start :=
      if !truthyS canonical.time_start && truthyS duplicate.time_start then
        duplicate.time_start else canonical.time_start,
    time_end :=
      if !truthyS canonical.time_end && truthyS duplicate.time_end then
        duplicate.time_end else canonical.time_end,
    organizer_name :=
      if !truthyS canonical.organizer_name && truthyS duplicate.organizer_name then
        duplicate.organizer_name else canonical.organizer_name,
    tags := some (tagsUnion (canonical.tags.getD []) (duplicate.tags.getD [])) }

/-- The `events_by_id` dictionary comprehension (later entries overwrite
earlier ones on key collision, as in a Python dict). -/
def eventsById (events : List EventDict) : List (String × EventDict) :=
  events.enum.map (fun p => (p.2.id.getD (toString p.1), p.2))

def lookupLast (l : List (String × EventDict)) (k : String) : Option EventDict :=
  l.foldl (fun acc p => if p.1 = k then some p.2 else acc) none

/-- Merge `event` with every match whose `canonical_id` is `event_id`, in
match order (the body of the `for match in duplicates` loop). -/
def mergeAllFor (mts : List DuplicateMatch) (byId : List (String × EventDict))
    (event : EventDict) (event_id : String) : EventDict :=
  mts.foldl (fun me mt =>
    if mt.canonical_id = event_id then
      match lookupLast byId mt.duplicate_id with
      | some dup => merge_events me dup
      | none => me
    else me) event

/-- The output loop of `deduplicate_events`: skip events whose id is a
duplicate id, emit each remaining id once (`merged_canonical`), merged with
all its duplicates. -/
def dedupLoop (dupIds : List String) (mts : List DuplicateMatch)
    (byId : List (String × EventDict)) :
    List String → List EventDict → List EventDict
  | _, [] => []
  | mergedCanonical, e :: rest =>
    let event_id := e.id.getD ""
    if dupIds.contains event_id then dedupLoop dupIds mts byId mergedCanonical rest
    else if mergedCanonical.contains event_id then dedupLoop dupIds mts byId mergedCanonical rest
    else mergeAllFor mts byId e event_id ::
      dedupLoop dupIds mts byId (event_id :: mergedCanonical) rest

/-- `EventDeduplicator.deduplicate_events`, parameterised by the similarity
function (the source also builds a `merge_map` it never reads; it is
omitted). -/
def deduplicate_events (simFn : String → String → ℚ) (cfg : DedupConfig)
    (events : List EventDict) : List EventDict × List DuplicateMatch :=
  let duplicates := find_duplicatesWith simFn cfg events
  let duplicate_ids := duplicates.map (·.duplicate_id)
  (dedupLoop duplicate_ids duplicates (eventsById events) [] events, duplicates)

/-! ## Helper lemmas for the price and date claims -/

theorem parse_price_is_free_imp (pt : Option String) :
    (parse_price pt).is_free = true → (parse_price pt).price_from = 0 := by
  unfold parse_price
  split
  · simp
  · split
    · simp
    · split
      · simp
      · split
        · simp
        · intro h
          exact of_decide_eq_true h
        · intro h
          exact of_decide_eq_true h

theorem sortAsc_head_mem (l : List ℚ) (p : ℚ) (rest : List ℚ)
    (h : sortAsc l = p :: rest) : p ∈ l := by
  have := (sortAsc_perm l).mem_iff (a := p)
  rw [h] at this
  exact this.mp (List.mem_cons_self p rest)

theorem sortAsc_head_le (l : List ℚ) (p : ℚ) (rest : List ℚ)
    (h : sortAsc l = p :: rest) : ∀ x ∈ l, p ≤ x := by
  intro x hx
  have hmem : x ∈ p :: rest := by
    have := (sortAsc_perm l).mem_iff (a := x)
    rw [h] at this
    exact this.mpr hx
  rcases List.mem_cons.mp hmem with hx' | hx'
  · exact hx' ▸ le_refl p
  · have hsorted := sortAsc_sorted l
    rw [h, List.sorted_cons] at hsorted
    exact hsorted.1 x hx'

/-- With `created_at`/`updated_at` blanked out, for stating what is clock
independent about `normalize_event`. -/
def eraseTimestamps (e : UnifiedEvent) : UnifiedEvent :=
  { e with created_at := "", updated_at := "" }

/-- C1: whatever the optional classifier replies — absent client, raised
exception, malformed result, or a category outside the closed set — the
category returned by `EventCategorizer.categorize` is a member of the closed
set `VALID_CATEGORIES`. -/
theorem C1_category_closure (ai : ClassifierReply)
    (title description source_name venue_name : String) :
    (categorize ai title description source_name venue_name).category ∈ VALID_CATEGORIES := by
  unfold categorize
  match ai with
  | .noClient => exact categorize_with_rules_mem ..
  | .raised => exact categorize_with_rules_mem ..
  | .reply r =>
    by_cases h : VALID_CATEGORIES.contains r.category
    · simp only [h, if_pos]
      simp only [List.contains] at h
      exact List.mem_of_elem_eq_true h
    · simp only [h, if_neg, not_false_iff, Bool.false_eq_true]
      exact categorize_with_rules_mem ..

/-- C2 fails as stated: when the scraper supplies a numeric price, the code
computes `is_free = scraped.is_free or price_from == 0`, so a posting with
`is_free = True` and `price_from = 10` normalizes to a record with
`is_free = true` and `price_from = 10 ≠ 0`. -/
theorem C2_counterexample :
    ((normalize_event ⟨"2025-01-01", 2025, "2025-01-01T00:00:00"⟩
        { title := "Concert", description := "", source_name := "src",
          source_event_url := "http://e", price_from := some 10, is_free := true }
        none).is_free = true) ∧
    ((normalize_event ⟨"2025-01-01", 2025, "2025-01-01T00:00:00"⟩
        { title := "Concert", description := "", source_name := "src",
          source_event_url := "http://e", price_from := some 10, is_free := true }
        none).price_from ≠ 0) := by
  constructor
  · decide
  · decide

/-- C2 (amended): `is_free = true ⇒ price_from = 0` holds whenever the price
comes from the free-text parser (`scraped.price_from` unset) or the scraper
did not itself assert `is_free`; only a scraper-supplied
`is_free = True` with a nonzero numeric `price_from` violates it. -/
theorem C2_price_invariant (clock : Clock) (scraped : ScrapedEvent) (co : Option String)
    (h : scraped.price_from = none ∨ scraped.is_free = false)
    (hfree : (normalize_event clock scraped co).is_free = true) :
    (normalize_event clock scraped co).price_from = 0 := by
  have hif : (normalize_event clock scraped co).is_free = (resolve_price scraped).is_free := rfl
  have hpf : (normalize_event clock scraped co).price_from
      = (resolve_price scraped).price_from := rfl
  rw [hpf]
  rw [hif] at hfree
  unfold resolve_price at hfree ⊢
  rcases h with h | h
  · rw [h] at hfree ⊢
    exact parse_price_is_free_imp _ hfree
  · cases hp : scraped.price_from with
    | none =>
      rw [hp] at hfree
      exact parse_price_is_free_imp _ hfree
    | some pf =>
      rw [hp] at hfree
      have h2 : (scraped.is_free || decide (pf = 0)) = true := hfree
      rw [h] at h2
      simp only [Bool.false_or] at h2
      show pf = 0
      exact of_decide_eq_true h2

theorem C2_price_invariant_witness :
    (normalize_event ⟨"2025-01-01", 2025, "t"⟩
       { title := "Atelier", description := "", source_name := "s",
         source_event_url := "u", price_text := some "Gratuit" } none).price_from = 0 :=
  C2_price_invariant _ _ _ (Or.inl rfl) (by decide)

/-- C3: whenever the date text matches none of the recognized forms
(`normalize_date` returns `None`), `normalize_event` resolves `date_start` to
the current processing date; the field is total (`String`, never null) by
construction, mirroring the unconditional assignment in the source. -/
theorem C3_date_fallback (clock : Clock) (scraped : ScrapedEvent) (co : Option String)
    (h : normalize_date clock.curYear scraped.date_start = none) :
    (normalize_event clock scraped co).date_start = clock.todayStr := by
  have hds : (normalize_event clock scraped co).date_start
      = (normalize_date clock.curYear scraped.date_start).getD clock.todayStr := rfl
  rw [hds, h]
  rfl

theorem C3_date_fallback_witness :
    normalize_date 2025 (some "date à venir") = none ∧
    (normalize_event ⟨"2025-06-01", 2025, "now"⟩
       { title := "Expo", description := "", source_name := "s", source_event_url := "u",
         date_start := some "date à venir" } none).date_start = "2025-06-01" :=
  ⟨by decide, C3_date_fallback _ _ _ (by decide)⟩

/-- C5 fails as stated: `created_at`/`updated_at` default to
`datetime.now().isoformat()`, so two calls on the same posting at different
clock readings produce different records. -/
theorem C5_counterexample :
    normalize_event ⟨"2025-01-01", 2025, "2025-01-01T10:00:00.000001"⟩
        { title := "Récital", description := "", source_name := "s",
          source_event_url := "u" } none
      ≠ normalize_event ⟨"2025-01-01", 2025, "2025-01-01T10:00:00.000002"⟩
        { title := "Récital", description := "", source_name := "s",
          source_event_url := "u" } none := by
  decide

/-- C5 (amended): apart from the `created_at`/`updated_at` timestamps, the
output of `normalize_event` is a deterministic function of the posting, the
processing day and the processing year (the wall clock enters only through
the timestamps, the unparseable-date fallback, and year completion). -/
theorem C5_determinism (scraped : ScrapedEvent) (co : Option String) (c1 c2 : Clock)
    (hday : c1.todayStr = c2.todayStr) (hyear : c1.curYear = c2.curYear) :
    eraseTimestamps (normalize_event c1 scraped co)
      = eraseTimestamps (normalize_event c2 scraped co) := by
  unfold normalize_event eraseTimestamps
  rw [hday, hyear]

theorem C5_determinism_witness :
    eraseTimestamps (normalize_event ⟨"2025-01-01", 2025, "2025-01-01T10:00:00.000001"⟩
        { title := "Visite guidée", description := "", source_name := "s",
          source_event_url := "u" } none)
      = eraseTimestamps (normalize_event ⟨"2025-01-01", 2025, "2025-01-01T10:00:00.000002"⟩
        { title := "Visite guidée", description := "", source_name := "s",
          source_event_url := "u" } none) :=
  C5_determinism _ _ _ _ rfl rfl

/-- C9: the source lower-cases every `strptime` format string, so `%B`/`%Y`
become `%b`/`%y`; `"15 décembre 2025"` — normalised to `"15 december 2025"` —
matches no format (`%b` accepts only abbreviated month names and `%y` only
two-digit years) and no fallback regex, so `normalize_date` returns `None`
and `date_start` falls back to the current processing date instead of the
claimed `2025-12-15`. -/
theorem C9_french_date_bug :
    normalize_date 2026 (some "15 décembre 2025") = none ∧
    (normalize_event ⟨"2026-02-03", 2026, "now"⟩
       { title := "Concert", description := "", source_name := "s", source_event_url := "u",
         date_start := some "15 décembre 2025" } none).date_start = "2026-02-03" := by
  constructor
  · decide
  · decide

/-- C10: when no free keyword matches and at least one number is extracted,
`parse_price` flags `is_free` exactly when the smallest extracted number is
zero (stated as: 0 is among the extracted numbers and bounds them below). -/
theorem C10_zero_price_free (t : String) (h0 : t ≠ "")
    (hfree : free_patterns.any (fun p => strContains (stripStr (lowerStr t)) p) = false)
    (hnum : findNumbers (stripStr (lowerStr t)).data ≠ []) :
    ((parse_price (some t)).is_free = true ↔
      (0 : ℚ) ∈ findNumbers (stripStr (lowerStr t)).data ∧
        ∀ q ∈ findNumbers (stripStr (lowerStr t)).data, 0 ≤ q) := by
  unfold parse_price
  simp only [h0, if_neg, not_false_iff, hfree, Bool.false_eq_true]
  cases hs : sortAsc (findNumbers (stripStr (lowerStr t)).data) with
  | nil =>
    exfalso
    apply hnum
    have hperm := sortAsc_perm (findNumbers (stripStr (lowerStr t)).data)
    rw [hs] at hperm
    exact hperm.symm.eq_nil
  | cons p rest =>
    have hpm : p ∈ findNumbers (stripStr (lowerStr t)).data := sortAsc_head_mem _ _ _ hs
    have hple : ∀ x ∈ findNumbers (stripStr (lowerStr t)).data, p ≤ x :=
      sortAsc_head_le _ _ _ hs
    have hgoal : ∀ pr : PriceResult, pr.is_free = decide (p = 0) →
        (pr.is_free = true ↔
          (0 : ℚ) ∈ findNumbers (stripStr (lowerStr t)).data ∧
            ∀ q ∈ findNumbers (stripStr (lowerStr t)).data, 0 ≤ q) := by
      intro pr hpr
      rw [hpr]
      constructor
      · intro hdec
        have hp0 : p = 0 := of_decide_eq_true hdec
        exact ⟨hp0 ▸ hpm, fun q hq => hp0 ▸ hple q hq⟩
      · rintro ⟨h0m, hb⟩
        have h1 : p ≤ 0 := hple 0 h0m
        have h2 : 0 ≤ p := hb p hpm
        exact decide_eq_true (le_antisymm h1 h2)
    cases rest with
    | nil => exact hgoal _ rfl
    | cons q rest' => exact hgoal _ rfl

theorem truthyS_iff_length_pos (o : Option String) :
    truthyS o = true ↔ 0 < (o.getD "").length := by
  cases o with
  | none => simp [truthyS, Option.getD, String.length]
  | some s =>
    cases s with
    | mk cs =>
      simp only [truthyS, Option.getD, bne_iff_ne, ne_eq, decide_eq_true_eq, String.length]
      constructor
      · intro h
        cases cs with
        | nil => exact absurd rfl h
        | cons a l => simp
      · intro h he
        have : cs = [] := congrArg String.data he
        rw [this] at h
        simp at h

/-- C8: `merge_events` never replaces a non-empty canonical field by an
empty one.  Each field of the fixed merge list is copied from the duplicate
exactly where the canonical value is empty (Python-falsy); `ticket_url` and
the booking flag additionally obey the direct-booking override and
`description` the longer-text rule — the treatments the claim names — the
tag lists are unioned as sets, and every field outside those treatments is
left unchanged. -/
theorem C8_merge_monotonicity (c d : EventDict) :
    ((truthyS c.description = true → truthyS (merge_events c d).description = true) ∧
     (truthyS c.ticket_url = true → truthyS (merge_events c d).ticket_url = true)) ∧
    ((merge_events c d).image_url
      = if !truthyS c.image_url && truthyS d.image_url then d.image_url else c.image_url) ∧
    ((merge_events c d).address
      = if !truthyS c.address && truthyS d.address then d.address else c.address) ∧
    ((merge_events c d).arrondissement
      = if !truthyI c.arrondissement && truthyI d.arrondissement then d.arrondissement
        else c.arrondissement) ∧
    ((merge_events c d).latitude
      = if !truthyQ c.latitude && truthyQ d.latitude then d.latitude else c.latitude) ∧
    ((merge_events c d).longitude
      = if !truthyQ c.longitude && truthyQ d.longitude then d.longitude else c.longitude) ∧
    ((merge_events c d).price_from
      = if !truthyQ c.price_from && truthyQ d.price_from then d.price_from else c.price_from) ∧
    ((merge_events c d).price_to
      = if !truthyQ c.price_to && truthyQ d.price_to then d.price_to else c.price_to) ∧
    ((merge_events c d).time_start
      = if !truthyS c.time_start && truthyS d.time_start then d.time_start else c.time_start) ∧
    ((merge_events c d).time_end
      = if !truthyS c.time_end && truthyS d.time_end then d.time_end else c.time_end) ∧
    ((merge_events c d).organizer_name
      = if !truthyS c.organizer_name && truthyS d.organizer_name then d.organizer_name
        else c.organizer_name) ∧
    ((merge_events c d).ticket_url
      = if truthyB d.has_direct_ticket_button && truthyS d.ticket_url &&
            !truthyB c.has_direct_ticket_button then d.ticket_url
        else if !truthyS c.ticket_url && truthyS d.ticket_url then d.ticket_url
        else c.ticket_url) ∧
    ((merge_events c d).has_direct_ticket_button
      = if truthyB d.has_direct_ticket_button && truthyS d.ticket_url &&
            !truthyB c.has_direct_ticket_button then some true
        else c.has_direct_ticket_button) ∧
    ((merge_events c d).description
      = if (d.description.getD "").length >
            ((if !truthyS c.description && truthyS d.description then d.description
              else c.description).getD "").length then d.description
        else if !truthyS c.description && truthyS d.description then d.description
        else c.description) ∧
    (∀ t : String,
      t ∈ (merge_events c d).tags.getD [] ↔ t ∈ c.tags.getD [] ∨ t ∈ d.tags.getD []) ∧
    ((merge_events c d).id = c.id ∧ (merge_events c d).title = c.title ∧
     (merge_events c d).date_start = c.date_start ∧ (merge_events c d).date = c.date ∧
     (merge_events c d).location_name = c.location_name ∧
     (merge_events c d).venue = c.venue ∧ (merge_events c d).price = c.price ∧
     (merge_events c d).source_name = c.source_name) := by
  refine ⟨⟨?_, ?_⟩, rfl, rfl, rfl, rfl, rfl, rfl, rfl, rfl, rfl, rfl, rfl, rfl, rfl, ?_,
    ⟨rfl, rfl, rfl, rfl, rfl, rfl, rfl, rfl⟩⟩
  · intro h
    have hgoal : (merge_events c d).description
        = if (d.description.getD "").length >
            ((if !truthyS c.description && truthyS d.description then d.description
              else c.description).getD "").length then d.description
          else if !truthyS c.description && truthyS d.description then d.description
          else c.description := rfl
    rw [hgoal]
    have hfill : (!truthyS c.description && truthyS d.description) = false := by
      rw [h]; rfl
    rw [hfill]
    simp only [Bool.false_eq_true, if_false]
    split_ifs with hlen
    · rw [truthyS_iff_length_pos]
      have hc := (truthyS_iff_length_pos c.description).mp h
      omega
    · exact h
  · intro h
    have hgoal : (merge_events c d).ticket_url
        = if truthyB d.has_direct_ticket_button && truthyS d.ticket_url &&
              !truthyB c.has_direct_ticket_button then d.ticket_url
          else if !truthyS c.ticket_url && truthyS d.ticket_url then d.ticket_url
          else c.ticket_url := rfl
    rw [hgoal]
    have hfill : (!truthyS c.ticket_url && truthyS d.ticket_url) = false := by
      rw [h]; rfl
    rw [hfill]
    simp only [Bool.false_eq_true, if_false]
    split_ifs with hov
    · exact ((Bool.and_eq_true _ _).mp ((Bool.and_eq_true _ _).mp hov).1).2
    · exact h
  · intro t
    have hgoal : (merge_events c d).tags
        = some (tagsUnion (c.tags.getD []) (d.tags.getD [])) := rfl
    rw [hgoal]
    simp [tagsUnion, List.mem_dedup, List.mem_append]

/-- Inputs of the C4 counterexample: same date, identical titles (similarity
100 ≥ 85), disjoint venue names (similarity 0 < 75), identical addresses
(similarity 100 > 80). -/
def c4ev1 : EventDict :=
  { id := some "a", title := some "Jazz Manouche Trio", date_start := some "2025-12-15",
    location_name := some "Sunset", address := some "12 rue des Lombards 75001" }

def c4ev2 : EventDict :=
  { id := some "b", title := some "Jazz Manouche Trio", date_start := some "2025-12-15",
    location_name := some "Badaboum", address := some "12 rue des Lombards 75001" }

/-- C4 fails as stated: the code returns `False` as soon as the venue check
fails, before ever looking at the addresses, so address agreement above 80
does not confirm the pair. -/
theorem C4_counterexample :
    effDate c4ev1 = effDate c4ev2 ∧
    ¬ calculate_similarity (c4ev1.title.getD "") (c4ev2.title.getD "") < 85 ∧
    locOf c4ev1 ≠ "" ∧ locOf c4ev2 ≠ "" ∧
    calculate_similarity (locOf c4ev1) (locOf c4ev2) < 75 ∧
    c4ev1.address.getD "" ≠ "" ∧ c4ev2.address.getD "" ≠ "" ∧
    calculate_similarity (c4ev1.address.getD "") (c4ev2.address.getD "") > 80 ∧
    (are_duplicatesWith calculate_similarity {} c4ev1 c4ev2).1 = false := by
  decide

/-- C4 (amended): for same-date pairs whose title similarity reaches the
title threshold and which carry venue names on both sides, the pair is
confirmed exactly when venue similarity clears the venue threshold; address
similarity above 80 only upgrades the reported score and reason of an
already-confirmed match, and never rescues a failed venue check. -/
theorem C4_venue_gate (simFn : String → String → ℚ) (cfg : DedupConfig)
    (e1 e2 : EventDict)
    (hdate : effDate e1 = effDate e2)
    (htitle : ¬ simFn (e1.title.getD "") (e2.title.getD "") < cfg.title_threshold)
    (hloc1 : locOf e1 ≠ "") (hloc2 : locOf e2 ≠ "") :
    ((are_duplicatesWith simFn cfg e1 e2).1 = true ↔
      ¬ simFn (locOf e1) (locOf e2) < cfg.location_threshold) := by
  unfold are_duplicatesWith
  rw [if_neg (fun hcon => hcon hdate), if_neg htitle]
  have hb1 : (locOf e1 != "") = true := by simpa [bne_iff_ne] using hloc1
  have hb2 : (locOf e2 != "") = true := by simpa [bne_iff_ne] using hloc2
  by_cases hl : simFn (locOf e1) (locOf e2) < cfg.location_threshold
  · rw [if_pos (by rw [hb1, hb2]; simpa using hl)]
    simpa using hl
  · rw [if_neg (by rw [hb1, hb2]; simpa using hl)]
    split_ifs <;> simp [hl]

/-- Inputs of the `C4_venue_gate` witness: identical titles and identical
venue names. -/
def c4w1 : EventDict :=
  { id := some "x", title := some "Jazz Manouche Trio", date_start := some "2025-12-15",
    location_name := some "Sunset" }

def c4w2 : EventDict :=
  { id := some "y", title := some "Jazz Manouche Trio", date_start := some "2025-12-15",
    location_name := some "Sunset" }

theorem C4_venue_gate_witness :
    (are_duplicatesWith calculate_similarity {} c4w1 c4w2).1 = true ↔
      ¬ calculate_similarity (locOf c4w1) (locOf c4w2) <
          ({} : DedupConfig).location_threshold :=
  C4_venue_gate calculate_similarity {} c4w1 c4w2 (by decide) (by decide) (by decide)
    (by decide)

/-! ### Provenance of duplicate matches (for the dedup date invariant) -/

theorem str_contains_iff (l : List String) (x : String) : l.contains x = true ↔ x ∈ l := by
  simp [List.contains, List.elem_iff]

/-- Every bucket of the grouping carries a non-empty key, and every member
comes from the input list with exactly that bucket key. -/
def bucketInv (events : List EventDict) (acc : List (String × List EventDict)) : Prop :=
  ∀ p ∈ acc, p.1 ≠ "" ∧ ∀ x ∈ p.2, x ∈ events ∧ bucketKey x = p.1

theorem addToGroup_inv (events : List EventDict) (acc : List (String × List EventDict))
    (d : String) (e : EventDict)
    (hacc : bucketInv events acc) (he : e ∈ events) (hd : bucketKey e = d) (hne : d ≠ "") :
    bucketInv events (addToGroup acc d e) := by
  induction acc with
  | nil =>
    intro p hp
    simp only [addToGroup, List.mem_singleton] at hp
    subst hp
    refine ⟨hne, ?_⟩
    intro x hx
    simp only [List.mem_singleton] at hx
    subst hx
    exact ⟨he, hd⟩
  | cons q rest ih =>
    intro p hp
    simp only [addToGroup] at hp
    by_cases hq : q.1 = d
    · rw [if_pos hq] at hp
      rcases List.mem_cons.mp hp with hp' | hp'
      · subst hp'
        obtain ⟨h1, h2⟩ := hacc q (List.mem_cons_self q rest)
        refine ⟨h1, ?_⟩
        intro x hx
        rcases List.mem_append.mp hx with hx' | hx'
        · exact h2 x hx'
        · simp only [List.mem_singleton] at hx'
          subst hx'
          exact ⟨he, by rw [hd, hq]⟩
      · exact hacc p (List.mem_cons_of_mem q hp')
    · rw [if_neg hq] at hp
      rcases List.mem_cons.mp hp with hp' | hp'
      · rw [hp']
        exact hacc q (List.mem_cons_self q rest)
      · exact ih (fun r hr => hacc r (List.mem_cons_of_mem q hr)) p hp'

theorem groupByDate_inv (events : List EventDict) :
    bucketInv events (groupByDate events) := by
  suffices h : ∀ (l : List EventDict) (acc : List (String × List EventDict)),
      (∀ e ∈ l, e ∈ events) → bucketInv events acc →
      bucketInv events (l.foldl (fun acc e =>
        let d := bucketKey e
        if d = "" then acc else addToGroup acc d e) acc) by
    exact h events [] (fun _ h => h) (fun p hp => absurd hp (List.not_mem_nil p))
  intro l
  induction l with
  | nil => exact fun acc _ hacc => hacc
  | cons e rest ih =>
    intro acc hl hacc
    simp only [List.foldl_cons]
    by_cases hd : bucketKey e = ""
    · refine ih _ (fun x hx => hl x (List.mem_cons_of_mem e hx)) ?_
      simpa [hd] using hacc
    · refine ih _ (fun x hx => hl x (List.mem_cons_of_mem e hx)) ?_
      have : (if bucketKey e = "" then acc else addToGroup acc (bucketKey e) e)
          = addToGroup acc (bucketKey e) e := if_neg hd
      simpa [this] using
        addToGroup_inv events acc (bucketKey e) e hacc
          (hl e (List.mem_cons_self e rest)) rfl hd

theorem choose_canonical_cases (e1 e2 : EventDict) :
    choose_canonical e1 e2 = (e1, e2) ∨ choose_canonical e1 e2 = (e2, e1) := by
  unfold choose_canonical
  split_ifs <;> simp

theorem innerLoop_mem (simFn : String → String → ℚ) (cfg : DedupConfig) (i : Nat)
    (e1 : EventDict) :
    ∀ (l : List EventDict) (st : DedupState) (m : DuplicateMatch),
      m ∈ (innerLoop simFn cfg i e1 l st).2 →
      m ∈ st.2 ∨ ∃ e2 ∈ l,
        m.canonical_id = (choose_canonical e1 e2).1.id.getD "" ∧
        m.duplicate_id = (choose_canonical e1 e2).2.id.getD "" := by
  intro l
  induction l with
  | nil => exact fun st m hm => Or.inl hm
  | cons e2 rest ih =>
    intro st m hm
    simp only [innerLoop] at hm
    by_cases hseen : st.1.contains
        (sortPair (e1.id.getD (toString i)) (e2.id.getD (toString (i + 1)))) = true
    · rw [if_pos hseen] at hm
      rcases ih st m hm with h0 | ⟨e2', he2', hids⟩
      · exact Or.inl h0
      · exact Or.inr ⟨e2', List.mem_cons_of_mem e2 he2', hids⟩
    · rw [if_neg hseen] at hm
      by_cases hdup : (are_duplicatesWith simFn cfg e1 e2).1 = true
      · rw [if_pos hdup] at hm
        rcases ih _ m hm with h0 | ⟨e2', he2', hids⟩
        · rcases List.mem_append.mp h0 with h1 | h1
          · exact Or.inl h1
          · simp only [List.mem_singleton] at h1
            subst h1
            exact Or.inr ⟨e2, List.mem_cons_self e2 rest, rfl, rfl⟩
        · exact Or.inr ⟨e2', List.mem_cons_of_mem e2 he2', hids⟩
      · rw [if_neg hdup] at hm
        rcases ih _ m hm with h0 | ⟨e2', he2', hids⟩
        · exact Or.inl h0
        · exact Or.inr ⟨e2', List.mem_cons_of_mem e2 he2', hids⟩

theorem bucketLoop_mem (simFn : String → String → ℚ) (cfg : DedupConfig) :
    ∀ (l : List EventDict) (i : Nat) (st : DedupState) (m : DuplicateMatch),
      m ∈ (bucketLoop simFn cfg i l st).2 →
      m ∈ st.2 ∨ ∃ a ∈ l, ∃ b ∈ l,
        m.canonical_id = a.id.getD "" ∧ m.duplicate_id = b.id.getD "" := by
  intro l
  induction l with
  | nil => exact fun i st m hm => Or.inl hm
  | cons e1 rest ih =>
    intro i st m hm
    simp only [bucketLoop] at hm
    rcases ih (i + 1) _ m hm with hin | ⟨a, ha, b, hb, hids⟩
    · rcases innerLoop_mem simFn cfg i e1 rest st m hin with h0 | ⟨e2, he2, hids⟩
      · exact Or.inl h0
      · rcases choose_canonical_cases e1 e2 with hcc | hcc <;> rw [hcc] at hids
        · exact Or.inr ⟨e1, List.mem_cons_self e1 rest, e2,
            List.mem_cons_of_mem e1 he2, hids.1, hids.2⟩
        · exact Or.inr ⟨e2, List.mem_cons_of_mem e1 he2, e1,
            List.mem_cons_self e1 rest, hids.1, hids.2⟩
    · exact Or.inr ⟨a, List.mem_cons_of_mem e1 ha, b, List.mem_cons_of_mem e1 hb, hids⟩

theorem find_duplicates_mem (simFn : String → String → ℚ) (cfg : DedupConfig)
    (events : List EventDict) :
    ∀ m ∈ find_duplicatesWith simFn cfg events,
      ∃ dp ∈ groupByDate events, ∃ a ∈ dp.2, ∃ b ∈ dp.2,
        m.canonical_id = a.id.getD "" ∧ m.duplicate_id = b.id.getD "" := by
  suffices h : ∀ (gs : List (String × List EventDict)) (st : DedupState),
      (∀ p ∈ gs, p ∈ groupByDate events) →
      (∀ m ∈ st.2, ∃ dp ∈ groupByDate events, ∃ a ∈ dp.2, ∃ b ∈ dp.2,
        m.canonical_id = a.id.getD "" ∧ m.duplicate_id = b.id.getD "") →
      ∀ m ∈ (gs.foldl (fun st p => bucketLoop simFn cfg 0 p.2 st) st).2,
        ∃ dp ∈ groupByDate events, ∃ a ∈ dp.2, ∃ b ∈ dp.2,
          m.canonical_id = a.id.getD "" ∧ m.duplicate_id = b.id.getD "" by
    intro m hm
    exact h (groupByDate events) ([], []) (fun _ hp => hp)
      (fun m' hm' => absurd hm' (List.not_mem_nil m')) m hm
  intro gs
  induction gs with
  | nil => exact fun st _ hst => hst
  | cons p rest ih =>
    intro st hgs hst m hm
    simp only [List.foldl_cons] at hm
    refine ih _ (fun q hq => hgs q (List.mem_cons_of_mem p hq)) ?_ m hm
    intro m' hm'
    rcases bucketLoop_mem simFn cfg p.2 0 st m' hm' with h0 | ⟨a, ha, b, hb, hids⟩
    · exact hst m' h0
    · exact ⟨p, hgs p (List.mem_cons_self p rest), a, ha, b, hb, hids⟩

/-- C7: every confirmed `DuplicateMatch` links two events of the input list
that sit in the same date bucket; when every input event carries a truthy
`date_start` (as every pipeline record does), the two matched events have
equal `date_start` — events on different calendar dates are never matched. -/
theorem C7_date_invariant (simFn : String → String → ℚ) (cfg : DedupConfig)
    (events : List EventDict)
    (h : ∀ e ∈ events, truthyS e.date_start = true) :
    ∀ m ∈ find_duplicatesWith simFn cfg events,
      ∃ a ∈ events, ∃ b ∈ events,
        m.canonical_id = a.id.getD "" ∧ m.duplicate_id = b.id.getD "" ∧
        a.date_start = b.date_start := by
  intro m hm
  obtain ⟨dp, hdp, a, ha, b, hb, hc, hd⟩ := find_duplicates_mem simFn cfg events m hm
  obtain ⟨hne, hmem⟩ := groupByDate_inv events dp hdp
  obtain ⟨haev, hka⟩ := hmem a ha
  obtain ⟨hbev, hkb⟩ := hmem b hb
  have hds : ∀ x : EventDict, x ∈ events → bucketKey x = dp.1 → x.date_start = some dp.1 := by
    intro x hx hk
    have ht := h x hx
    unfold bucketKey at hk
    cases hxs : x.date_start with
    | none => rw [hxs] at ht; simp [truthyS] at ht
    | some s =>
      rw [hxs] at ht hk
      simp only [truthyS] at ht hk
      rw [if_pos ht] at hk
      simp only [Option.getD_some] at hk
      rw [hk]
  exact ⟨a, haev, b, hbev, hc, hd, by rw [hds a haev hka, hds b hbev hkb]⟩

/-- Inputs of the `C7_date_invariant` witness: two postings of the same
concert on the same date, which do produce a confirmed match. -/
def c7ev1 : EventDict :=
  { id := some "p", title := some "Quatuor à cordes", date_start := some "2025-05-05",
    location_name := some "Philharmonie" }

def c7ev2 : EventDict :=
  { id := some "q", title := some "Quatuor à cordes", date_start := some "2025-05-05",
    location_name := some "Philharmonie" }

theorem C7_date_invariant_witness :
    ∃ a ∈ [c7ev1, c7ev2], ∃ b ∈ [c7ev1, c7ev2],
      (⟨"p", "q", 100, "title:100%"⟩ : DuplicateMatch).canonical_id = a.id.getD "" ∧
      (⟨"p", "q", 100, "title:100%"⟩ : DuplicateMatch).duplicate_id = b.id.getD "" ∧
      a.date_start = b.date_start :=
  C7_date_invariant calculate_similarity {} [c7ev1, c7ev2] (by decide)
    ⟨"p", "q", 100, "title:100%"⟩ (by decide)

/-! ### Output shape of `deduplicate_events` -/

theorem merge_events_id (c d : EventDict) : (merge_events c d).id = c.id := rfl

theorem mergeAllFor_id (mts : List DuplicateMatch) (byId : List (String × EventDict))
    (e : EventDict) (v : String) : (mergeAllFor mts byId e v).id = e.id := by
  unfold mergeAllFor
  induction mts generalizing e with
  | nil => rfl
  | cons mt rest ih =>
    simp only [List.foldl_cons]
    rw [ih]
    by_cases hc : mt.canonical_id = v
    · rw [if_pos hc]
      cases lookupLast byId mt.duplicate_id with
      | none => rfl
      | some dup => exact merge_events_id e dup
    · rw [if_neg hc]

theorem dedupLoop_no_dup_ids (dupIds : List String) (mts : List DuplicateMatch)
    (byId : List (String × EventDict)) :
    ∀ (l : List EventDict) (mc : List String) (eo : EventDict),
      eo ∈ dedupLoop dupIds mts byId mc l → eo.id.getD "" ∉ dupIds := by
  intro l
  induction l with
  | nil => intro mc eo h; simp [dedupLoop] at h
  | cons e rest ih =>
    intro mc eo h
    simp only [dedupLoop] at h
    by_cases h1 : dupIds.contains (e.id.getD "") = true
    · rw [if_pos h1] at h
      exact ih mc eo h
    · rw [if_neg h1] at h
      by_cases h2 : mc.contains (e.id.getD "") = true
      · rw [if_pos h2] at h
        exact ih mc eo h
      · rw [if_neg h2] at h
        rcases List.mem_cons.mp h with he | ht
        · rw [he, mergeAllFor_id]
          intro hmem
          exact h1 ((str_contains_iff dupIds (e.id.getD "")).mpr hmem)
        · exact ih _ eo ht

theorem dedupLoop_filter_nil (dupIds : List String) (mts : List DuplicateMatch)
    (byId : List (String × EventDict)) (v : String) :
    ∀ (l : List EventDict) (mc : List String), v ∈ mc →
      (dedupLoop dupIds mts byId mc l).filter (fun e => e.id.getD "" == v) = [] := by
  intro l
  induction l with
  | nil => intro mc _; rfl
  | cons e rest ih =>
    intro mc hv
    simp only [dedupLoop]
    by_cases h1 : dupIds.contains (e.id.getD "") = true
    · rw [if_pos h1]
      exact ih mc hv
    · rw [if_neg h1]
      by_cases h2 : mc.contains (e.id.getD "") = true
      · rw [if_pos h2]
        exact ih mc hv
      · rw [if_neg h2]
        rw [List.filter_cons]
        have hne : ((mergeAllFor mts byId e (e.id.getD "")).id.getD "" == v) = false := by
          rw [mergeAllFor_id]
          simp only [beq_eq_false_iff_ne, ne_eq]
          intro heq
          exact h2 ((str_contains_iff mc (e.id.getD "")).mpr (heq ▸ hv))
        rw [hne]
        simp only [Bool.false_eq_true, if_false]
        exact ih _ (List.mem_cons_of_mem _ hv)

theorem dedupLoop_filter_emit (dupIds : List String) (mts : List DuplicateMatch)
    (byId : List (String × EventDict)) (v : String) (hv : v ∉ dupIds) :
    ∀ (l : List EventDict) (mc : List String), v ∉ mc →
      ∀ e0, l.find? (fun e => e.id.getD "" == v) = some e0 →
      (dedupLoop dupIds mts byId mc l).filter (fun e => e.id.getD "" == v)
        = [mergeAllFor mts byId e0 v] := by
  intro l
  induction l with
  | nil => intro mc _ e0 hf; simp [List.find?] at hf
  | cons e rest ih =>
    intro mc hmc e0 hf
    by_cases he : (e.id.getD "" == v) = true
    · have he' : e.id.getD "" = v := by simpa using he
      have hf' : e0 = e := by
        simp only [List.find?, he, Option.some.injEq] at hf
        exact hf.symm
      rw [hf']
      simp only [dedupLoop]
      have h1 : dupIds.contains (e.id.getD "") ≠ true := by
        rw [he']
        intro hc
        exact hv ((str_contains_iff dupIds v).mp hc)
      have h2 : mc.contains (e.id.getD "") ≠ true := by
        rw [he']
        intro hc
        exact hmc ((str_contains_iff mc v).mp hc)
      rw [if_neg h1, if_neg h2, List.filter_cons]
      have hpos : ((mergeAllFor mts byId e (e.id.getD "")).id.getD "" == v) = true := by
        rw [mergeAllFor_id]
        exact he
      rw [hpos]
      simp only [if_true]
      have hvmem : v ∈ e.id.getD "" :: mc := by
        rw [he']
        exact List.mem_cons_self _ _
      rw [dedupLoop_filter_nil dupIds mts byId v rest _ hvmem, he']
    · have he' : e.id.getD "" ≠ v := by simpa using he
      have hf' : rest.find? (fun e => e.id.getD "" == v) = some e0 := by
        rwa [List.find?_cons_of_neg _ (by simpa using he')] at hf
      simp only [dedupLoop]
      by_cases h1 : dupIds.contains (e.id.getD "") = true
      · rw [if_pos h1]
        exact ih mc hmc e0 hf'
      · rw [if_neg h1]
        by_cases h2 : mc.contains (e.id.getD "") = true
        · rw [if_pos h2]
          exact ih mc hmc e0 hf'
        · rw [if_neg h2, List.filter_cons]
          have hneg : ((mergeAllFor mts byId e (e.id.getD "")).id.getD "" == v) = false := by
            rw [mergeAllFor_id]
            simpa using he'
          rw [hneg]
          simp only [Bool.false_eq_true, if_false]
          refine ih _ ?_ e0 hf'
          intro hvmem
          rcases List.mem_cons.mp hvmem with hvh | hvt
          · exact he' hvh.symm
          · exact hmc hvt

/-- C6 (amended): every event whose id appears as a `duplicate_id` of a
confirmed match is absent from the output; and every id that is not itself a
duplicate id — in particular every surviving canonical id — is emitted
exactly once, as the first input event carrying that id merged (in match
order) with all of the duplicates matched to it.  An id that is canonical in
one match but duplicate in another is dropped, which is what refutes the
claim as stated. -/
theorem C6_dedup_output (simFn : String → String → ℚ) (cfg : DedupConfig)
    (events : List EventDict) :
    (∀ eo ∈ (deduplicate_events simFn cfg events).1,
       eo.id.getD "" ∉ (deduplicate_events simFn cfg events).2.map (·.duplicate_id)) ∧
    (∀ (v : String) (e0 : EventDict),
       v ∉ (deduplicate_events simFn cfg events).2.map (·.duplicate_id) →
       events.find? (fun e => e.id.getD "" == v) = some e0 →
       (deduplicate_events simFn cfg events).1.filter (fun e => e.id.getD "" == v)
         = [mergeAllFor (deduplicate_events simFn cfg events).2 (eventsById events) e0 v]) := by
  constructor
  · intro eo heo
    exact dedupLoop_no_dup_ids _ _ _ events [] eo heo
  · intro v e0 hvd hf
    exact dedupLoop_filter_emit _ _ _ v hvd events []
      (fun hx => absurd hx (List.not_mem_nil v)) e0 hf

/-- Inputs of the C6 counterexample: three same-day postings of one event;
`C` is richest (it has an image), so the pair loop records the matches
`(A ⊸ B)`, `(C ⊸ A)`, `(C ⊸ B)` — `A` is canonical in the first match yet a
duplicate in the second. -/
def c6evA : EventDict :=
  { id := some "A", title := some "Tango Quartet", date_start := some "2025-03-01" }

def c6evB : EventDict :=
  { id := some "B", title := some "Tango Quartet", date_start := some "2025-03-01" }

def c6evC : EventDict :=
  { id := some "C", title := some "Tango Quartet", date_start := some "2025-03-01",
    image_url := some "http://img" }

/-- C6 fails as stated: `"A"` is selected as canonical in a confirmed match,
yet no event with id `"A"` is emitted (its id also appears as a duplicate id
of a later match, so the output loop drops it). -/
theorem C6_counterexample :
    ((deduplicate_events calculate_similarity {} [c6evA, c6evB, c6evC]).2.map
        (·.canonical_id)).contains "A" = true ∧
    ((deduplicate_events calculate_similarity {} [c6evA, c6evB, c6evC]).1.all
        (fun e => e.id.getD "" != "A")) = true := by
  constructor
  · decide
  · decide

theorem C10_zero_price_free_witness :
    (parse_price (some "0 euros")).is_free = true ↔
      (0 : ℚ) ∈ findNumbers (stripStr (lowerStr "0 euros")).data ∧
        ∀ q ∈ findNumbers (stripStr (lowerStr "0 euros")).data, 0 ≤ q :=
  C10_zero_price_free "0 euros" (by decide) (by decide) (by decide)

end Artify
